import Mathlib

/-!
# terraform-provider-podman: attribute coercion, validators and create

A shallow embedding of the translation layer of the provider
(`podman/provider/docker_funcs.go`, `labels.go`, `validators.go`), of the client
facade (`podman/client/client.go`) and of `resourcePodmanContainerCreate`
(`podman/provider/resource_podman_container.go`), together with the properties
the specification states about them.

Go values of static type `interface{}` are embedded as `GoValue`; a type
assertion `x.(T)` is a function into `Go`, the monad of computations that may
panic; the comma-ok form `x.(T)` returns the zero value and `false` instead.
The container engine is a parameter: an `Engine` gives the answer to each call
of the bindings library, and a run records the calls it makes.

Part I holds the definitions, Part II the lemmas and theorems.
-/

namespace Podman

/-! ## Part I: definitions -/

/-! ### Go runtime values -/

/-- Run-time panics of the Go program. -/
inductive Panic where
  /-- A failed single-value type assertion `x.(T)`; `want` is the asserted type. -/
  | interfaceConversion (want : String)
  /-- A method call through a nil pointer. -/
  | nilDereference
  /-- An index expression beyond the length of a slice. -/
  | indexOutOfRange
  /-- The panic of `regexp.MustCompile` on a pattern that does not compile. -/
  | mustCompile (pattern : String)
deriving DecidableEq, Repr

/-- Computations of the Go program: a value, or a panic. -/
abbrev Go := Except Panic

/-- Values of static type `interface{}` as the plugin SDK hands them to the
provider, together with the dynamic types the provider asserts. -/
inductive GoValue where
  /-- The nil interface value, also the result of indexing a map at a missing key. -/
  | nil
  /-- Dynamic type `string`. -/
  | string (s : String)
  /-- Dynamic type `int` (what a `TypeInt` attribute holds). -/
  | int (i : Int)
  /-- Dynamic type `bool`. -/
  | bool (b : Bool)
  /-- Dynamic type `uint16`. -/
  | uint16 (n : Nat)
  /-- Dynamic type `[]interface{}` (what a `TypeList` attribute holds). -/
  | slice (xs : List GoValue)
  /-- Dynamic type `map[string]interface{}`, as an association list. -/
  | map (kvs : List (String × GoValue))
  /-- Dynamic type `*schema.Set`; `none` is the nil pointer, `some xs` a set whose
  `List()` yields `xs`. -/
  | set (s : Option (List GoValue))
  /-- Dynamic type `*uint`; `none` is the nil pointer. -/
  | uintPtr (p : Option Nat)
  /-- Dynamic type `net.IP`, a slice of bytes. -/
  | ip (bytes : List Nat)

/-- The type `*schema.Set`: `none` is the nil pointer, `some xs` a set whose
`List()` method yields `xs` (the set's iteration order). -/
abbrev SchemaSet := Option (List GoValue)

/-- The method `(*schema.Set).List`; it dereferences its receiver. -/
def SchemaSet.List (s : SchemaSet) : Go (List GoValue) :=
  match s with
  | some xs => pure xs
  | none => throw .nilDereference

/-- Index expression `m[key]` on a `map[string]interface{}`: the value stored at
`key`, or the nil interface when the key is missing. -/
def mapIndex (m : List (String × GoValue)) (key : String) : GoValue :=
  match m.find? (fun kv => kv.1 == key) with
  | some kv => kv.2
  | none => .nil

/-- Type assertion `x.(string)`. -/
def GoValue.assertString : GoValue → Go String
  | .string s => pure s
  | _ => throw (.interfaceConversion "string")

/-- Type assertion `x.(bool)`. -/
def GoValue.assertBool : GoValue → Go Bool
  | .bool b => pure b
  | _ => throw (.interfaceConversion "bool")

/-- Type assertion `x.(int)`. -/
def GoValue.assertInt : GoValue → Go Int
  | .int i => pure i
  | _ => throw (.interfaceConversion "int")

/-- Type assertion `x.(map[string]interface{})`. -/
def GoValue.assertMap : GoValue → Go (List (String × GoValue))
  | .map kvs => pure kvs
  | _ => throw (.interfaceConversion "map[string]interface {}")

/-- Comma-ok type assertion `v, ok := x.(uint16)`. -/
def GoValue.okUint16 : GoValue → Nat × Bool
  | .uint16 n => (n, true)
  | _ => (0, false)

/-- Comma-ok type assertion `v, ok := x.(string)`. -/
def GoValue.okString : GoValue → String × Bool
  | .string s => (s, true)
  | _ => ("", false)

/-- The builtin `len` on a string: its length in bytes. -/
def len (s : String) : Nat := s.utf8ByteSize

/-- An `error` value made by `errors.New`: its message. -/
structure GoError where
  msg : String
deriving DecidableEq, Repr

/-- The function `errors.New`. -/
def errorsNew (text : String) : GoError := ⟨text⟩

/-! ### Engine-native records (`specgen`) -/

/-- The record `specgen.PortMapping`. -/
structure PortMapping where
  HostIP : String := ""
  ContainerPort : Nat := 0
  HostPort : Nat := 0
  Range : Nat := 0
  Protocol : String := ""
deriving DecidableEq, Repr

/-- The record `specgen.NamedVolume`. -/
structure NamedVolume where
  Name : String
  Dest : String
  Options : List String
deriving DecidableEq, Repr

/-! ### `docker_funcs.go` -/

/-- The loop of `stringListToStringSlice`, `ret` being the slice built so far. -/
def stringListToStringSliceLoop : List GoValue → List String → Go (List String)
  | [], ret => pure ret
  | v :: rest, ret =>
    match v with
    | .nil => stringListToStringSliceLoop rest (ret ++ [""])
    | _ => do
      let s ← v.assertString
      stringListToStringSliceLoop rest (ret ++ [s])

/-- The function `stringListToStringSlice`. -/
def stringListToStringSlice (stringList : List GoValue) : Go (List String) :=
  stringListToStringSliceLoop stringList []

/-- The loop of `portSetToPodmanPortMappings`. -/
def portSetToPodmanPortMappingsLoop :
    List GoValue → List PortMapping → Go (List PortMapping)
  | [], retPortMappings => pure retPortMappings
  | portInt :: rest, retPortMappings => do
    let port ← portInt.assertMap
    let portMapping : PortMapping := {}
    let protocol ← (mapIndex port "protocol").assertString
    let portMapping := { portMapping with Protocol := protocol }
    let (internal, intOk) := (mapIndex port "internal").okUint16
    let portMapping :=
      if intOk then { portMapping with ContainerPort := internal } else portMapping
    let (external, extOk) := (mapIndex port "external").okUint16
    let portMapping :=
      if extOk then { portMapping with HostPort := external } else portMapping
    let (ip, ipOk) := (mapIndex port "ip").okString
    let portMapping :=
      if ipOk then { portMapping with HostIP := ip } else portMapping
    if intOk && (extOk || ipOk) then
      portSetToPodmanPortMappingsLoop rest (retPortMappings ++ [portMapping])
    else
      portSetToPodmanPortMappingsLoop rest retPortMappings

/-- The function `portSetToPodmanPortMappings`. -/
def portSetToPodmanPortMappings (ports : List GoValue) : Go (List PortMapping) :=
  portSetToPodmanPortMappingsLoop ports []

/-- What `volumeSetToPodmanVolumes` returns when it does not panic: the named
volumes, the containers to take volumes from, and the error (`none` is `nil`). -/
abbrev VolumesResult := List NamedVolume × List String × Option GoError

/-- The loop of `volumeSetToPodmanVolumes`. -/
def volumeSetToPodmanVolumesLoop :
    List GoValue → List NamedVolume → List String → Go VolumesResult
  | [], retVolumes, retVolumeFromContainers =>
    pure (retVolumes, retVolumeFromContainers, none)
  | volumeInt :: rest, retVolumes, retVolumeFromContainers => do
    let volume ← volumeInt.assertMap
    let fromContainer ← (mapIndex volume "from_container").assertString
    let containerPath ← (mapIndex volume "container_path").assertString
    let volumeName ← (mapIndex volume "volume_name").assertString
    let volumeName ←
      if len volumeName == 0 then (mapIndex volume "host_path").assertString
      else pure volumeName
    let readOnly ← (mapIndex volume "read_only").assertBool
    if len fromContainer == 0 && len containerPath == 0 then
      pure (retVolumes, retVolumeFromContainers,
        some (errorsNew "Volume entry without container path or source container"))
    else if len fromContainer != 0 && len containerPath != 0 then
      pure (retVolumes, retVolumeFromContainers,
        some (errorsNew "Both a container and a path specified in a volume entry"))
    else if len fromContainer != 0 then
      volumeSetToPodmanVolumesLoop rest retVolumes (retVolumeFromContainers ++ [fromContainer])
    else if len volumeName != 0 then
      let readWrite := if readOnly then "ro" else "rw"
      let namedVolume : NamedVolume :=
        { Name := volumeName, Dest := containerPath, Options := [readWrite] }
      volumeSetToPodmanVolumesLoop rest (retVolumes ++ [namedVolume]) retVolumeFromContainers
    else
      volumeSetToPodmanVolumesLoop rest retVolumes retVolumeFromContainers

/-- The function `volumeSetToPodmanVolumes`. -/
def volumeSetToPodmanVolumes (volumes : SchemaSet) : Go VolumesResult := do
  let list ← volumes.List
  volumeSetToPodmanVolumesLoop list [] []

/-! ### `labels.go` -/

/-- A Go `map[string]string` as an association list without repeated keys. -/
abbrev StringMap := List (String × String)

/-- Assignment `m[k] = v` on a `map[string]string`. -/
def StringMap.set (m : StringMap) (k v : String) : StringMap :=
  m.filter (fun kv => kv.1 != k) ++ [(k, v)]

/-- Lookup `v, ok := m[k]` on a `map[string]string`. -/
def StringMap.get? (m : StringMap) (k : String) : Option String :=
  (m.find? (fun kv => kv.1 == k)).map (fun kv => kv.2)

/-- The keys of a `map[string]string`. -/
def StringMap.keys (m : StringMap) : List String := m.map (fun kv => kv.1)

/-- The function `labelToPair`. -/
def labelToPair (label : List (String × GoValue)) : Go (String × String) := do
  let l ← (mapIndex label "label").assertString
  let v ← (mapIndex label "value").assertString
  pure (l, v)

/-- The loop of `labelSetToMap`. -/
def labelSetToMapLoop : List GoValue → StringMap → Go StringMap
  | [], mapped => pure mapped
  | label :: rest, mapped => do
    let labelMap ← label.assertMap
    let (l, v) ← labelToPair labelMap
    labelSetToMapLoop rest (mapped.set l v)

/-- The function `labelSetToMap`. -/
def labelSetToMap (labels : SchemaSet) : Go StringMap := do
  let labelsSlice ← labels.List
  labelSetToMapLoop labelsSlice []

/-! ### Diagnostics (`diag`, `cty`, `fmt`) -/

/-- The type `diag.Severity`. -/
inductive Severity where
  | Error
  | Warning
deriving DecidableEq, Repr

/-- The key of a `cty.IndexStep`. -/
inductive IndexKey where
  | number (n : Int)
  | string (s : String)
deriving DecidableEq, Repr

/-- A step of a `cty.Path`. -/
inductive PathStep where
  | GetAttrStep (Name : String)
  | IndexStep (Key : IndexKey)
deriving DecidableEq, Repr

/-- The type `cty.Path`; the nil path is the empty list. -/
abbrev Path := List PathStep

/-- An operand of a `fmt.Sprintf` call. -/
inductive FmtArg where
  | path (k : Path)
  | string (s : String)
  | int (i : Int)
deriving DecidableEq, Repr

/-- A string of a diagnostic: a literal, or the result of a `fmt.Sprintf` call,
kept as the format with its operands (the rendering belongs to package `fmt`). -/
inductive Text where
  | lit (s : String)
  | sprintf (format : String) (args : List FmtArg)
deriving DecidableEq, Repr

/-- The call `fmt.Sprintf(format, args...)`. -/
def Sprintf (format : String) (args : List FmtArg) : Text := .sprintf format args

/-- The record `diag.Diagnostic`. -/
structure Diagnostic where
  Severity : Severity
  Summary : Text
  Detail : Text
  AttributePath : Path
deriving DecidableEq, Repr

/-- The type `diag.Diagnostics`; nil is the empty list. -/
abbrev Diagnostics := List Diagnostic

/-! ### Regular expressions (package `regexp`)

Modelled from the documentation of Go's `regexp` and `regexp/syntax` packages,
for the constructs the patterns of this repository use: literal characters,
backslash-escaped punctuation, the dot, character classes of characters and
ranges, groups, alternation and the anchors `^` and `$` (without the multi-line
flag: beginning and end of the text). Repetition operators, flags, Perl and
POSIX classes and escapes inside a class are outside the model; `regexpCompile`
reports a pattern that uses one as `RegexError.notModelled`. -/

/-- Abstract syntax of the regular expressions of the modelled fragment. -/
inductive Regex where
  /-- Matches the empty string. -/
  | empty
  /-- Matches nothing. -/
  | noMatch
  /-- A literal character. -/
  | char (c : Char)
  /-- The dot: any character but a newline. -/
  | anyCharNotNL
  /-- A character class `[...]` or, when `negated`, `[^...]`, as a list of ranges. -/
  | cls (negated : Bool) (ranges : List (Char × Char))
  /-- The anchor `^`: the beginning of the text. -/
  | beginText
  /-- The anchor `$`: the end of the text. -/
  | endText
  /-- Concatenation. -/
  | cat (a b : Regex)
  /-- Alternation. -/
  | alt (a b : Regex)
deriving DecidableEq, Repr

/-- Whether a character lies in one of the ranges of a class. -/
def inRanges (ranges : List (Char × Char)) (c : Char) : Bool :=
  ranges.any (fun r => r.1.val ≤ c.val && c.val ≤ r.2.val)

/-- Backtracking matcher: `re.matchFrom pos rest k` tells whether `re` matches a
prefix of `rest`, which starts at offset `pos` of the text, such that the
continuation `k` accepts the offset and the text after the match. -/
def Regex.matchFrom : Regex → Nat → List Char → (Nat → List Char → Bool) → Bool
  | .empty, pos, rest, k => k pos rest
  | .noMatch, _, _, _ => false
  | .char c, pos, rest, k =>
    match rest with
    | x :: xs => x == c && k (pos + 1) xs
    | [] => false
  | .anyCharNotNL, pos, rest, k =>
    match rest with
    | x :: xs => x != '\n' && k (pos + 1) xs
    | [] => false
  | .cls negated ranges, pos, rest, k =>
    match rest with
    | x :: xs => (inRanges ranges x != negated) && k (pos + 1) xs
    | [] => false
  | .beginText, pos, rest, k => pos == 0 && k pos rest
  | .endText, pos, rest, k => rest.isEmpty && k pos rest
  | .cat a b, pos, rest, k => a.matchFrom pos rest (fun p r => b.matchFrom p r k)
  | .alt a b, pos, rest, k => a.matchFrom pos rest k || b.matchFrom pos rest k

/-- Unanchored search: whether `re` matches at offset `pos` or at a later one. -/
def Regex.search (re : Regex) : Nat → List Char → Bool
  | pos, [] => re.matchFrom pos [] (fun _ _ => true)
  | pos, c :: cs => re.matchFrom pos (c :: cs) (fun _ _ => true) || re.search (pos + 1) cs

/-- The method `(*regexp.Regexp).MatchString`: whether the text contains a match. -/
def Regex.MatchString (re : Regex) (s : String) : Bool := re.search 0 s.data

/-- The concatenation of a sequence of expressions. -/
def Regex.concat : List Regex → Regex
  | [] => .empty
  | r :: rs => .cat r (Regex.concat rs)

/-- The alternation of a sequence of expressions. -/
def Regex.alternate : List Regex → Regex
  | [] => .noMatch
  | r :: rs => .alt r (Regex.alternate rs)

/-- Why a pattern does not compile. -/
inductive RegexError where
  | missingParen
  | unexpectedParen
  | trailingBackslash
  | missingBracket
  | invalidRange
  /-- The pattern uses a construct outside the modelled fragment. -/
  | notModelled (c : Char)
deriving DecidableEq, Repr

/-- A group under construction: the finished alternatives and the atoms of the
current alternative, both latest first. -/
structure Frame where
  alts : List Regex
  cur : List Regex
deriving DecidableEq, Repr

/-- The expression of a finished group. -/
def Frame.close (f : Frame) : Regex :=
  Regex.alternate (f.alts.reverse ++ [Regex.concat f.cur.reverse])

/-- Appends an atom to the current alternative. -/
def Frame.push (f : Frame) (r : Regex) : Frame := { f with cur := r :: f.cur }

/-- Where the parser stands. -/
inductive ParseMode where
  | normal
  /-- After a backslash. -/
  | escape
  /-- After the `[` that opens a class. -/
  | clsStart
  /-- Inside a class, between items. -/
  | cls (negated : Bool) (ranges : List (Char × Char))
  /-- Inside a class, after a character that may begin a range. -/
  | clsLo (negated : Bool) (ranges : List (Char × Char)) (lo : Char)
  /-- Inside a class, after a character and a `-`. -/
  | clsDash (negated : Bool) (ranges : List (Char × Char)) (lo : Char)
deriving DecidableEq, Repr

/-- Characters a backslash makes literal: ASCII characters that are neither
letters nor digits. -/
def isEscapable (c : Char) : Bool := c.val < 128 && !c.isAlphanum

/-- The parser: reads the pattern one character at a time; `top` is the group
being read and `stack` the groups around it. -/
def parseLoop : List Char → ParseMode → Frame → List Frame → Except RegexError Regex
  | [], .normal, top, [] => .ok top.close
  | [], .normal, _, _ :: _ => .error .missingParen
  | [], .escape, _, _ => .error .trailingBackslash
  | [], _, _, _ => .error .missingBracket
  | c :: cs, .normal, top, stack =>
    if c == '(' then parseLoop cs .normal ⟨[], []⟩ (top :: stack)
    else if c == ')' then
      match stack with
      | [] => .error .unexpectedParen
      | parent :: outer => parseLoop cs .normal (parent.push top.close) outer
    else if c == '|' then
      parseLoop cs .normal ⟨Regex.concat top.cur.reverse :: top.alts, []⟩ stack
    else if c == '^' then parseLoop cs .normal (top.push .beginText) stack
    else if c == '$' then parseLoop cs .normal (top.push .endText) stack
    else if c == '.' then parseLoop cs .normal (top.push .anyCharNotNL) stack
    else if c == '[' then parseLoop cs .clsStart top stack
    else if c == '\\' then parseLoop cs .escape top stack
    else if c == '*' || c == '+' || c == '?' || c == '{' then .error (.notModelled c)
    else parseLoop cs .normal (top.push (.char c)) stack
  | c :: cs, .escape, top, stack =>
    if isEscapable c then parseLoop cs .normal (top.push (.char c)) stack
    else .error (.notModelled c)
  | c :: cs, .clsStart, top, stack =>
    if c == '^' then parseLoop cs (.cls true []) top stack
    else if c == '\\' || c == '[' then .error (.notModelled c)
    else parseLoop cs (.clsLo false [] c) top stack
  | c :: cs, .cls negated ranges, top, stack =>
    if c == ']' && !ranges.isEmpty then
      parseLoop cs .normal (top.push (.cls negated ranges.reverse)) stack
    else if c == '\\' || c == '[' then .error (.notModelled c)
    else parseLoop cs (.clsLo negated ranges c) top stack
  | c :: cs, .clsLo negated ranges lo, top, stack =>
    if c == ']' then
      parseLoop cs .normal (top.push (.cls negated ((lo, lo) :: ranges).reverse)) stack
    else if c == '-' then parseLoop cs (.clsDash negated ranges lo) top stack
    else if c == '\\' || c == '[' then .error (.notModelled c)
    else parseLoop cs (.clsLo negated ((lo, lo) :: ranges) c) top stack
  | c :: cs, .clsDash negated ranges lo, top, stack =>
    if c == ']' then
      parseLoop cs .normal
        (top.push (.cls negated (('-', '-') :: (lo, lo) :: ranges).reverse)) stack
    else if c == '\\' || c == '[' then .error (.notModelled c)
    else if lo.val ≤ c.val then parseLoop cs (.cls negated ((lo, c) :: ranges)) top stack
    else .error .invalidRange

/-- The function `regexp.Compile`. -/
def regexpCompile (pattern : String) : Except RegexError Regex :=
  parseLoop pattern.data .normal ⟨[], []⟩ []


/-- The function `regexp.MustCompile`. -/
def regexpMustCompile (pattern : String) : Go Regex :=
  match regexpCompile pattern with
  | .ok re => pure re
  | .error _ => throw (.mustCompile pattern)

/-! ### Durations (package `time`)

Modelled from the source of `time.ParseDuration` in the Go standard library
(the version that accumulates in `uint64`). A duration is a number of
nanoseconds. The fractional part of a term is computed in `float64` there;
`roundFloat64` reproduces the rounding of each operation on rationals. -/

/-- Why `time.ParseDuration` fails. -/
inductive DurationError where
  /-- The error "time: invalid duration". -/
  | invalidDuration (orig : String)
  /-- The error "time: missing unit in duration". -/
  | missingUnit (orig : String)
  /-- The error "time: unknown unit". -/
  | unknownUnit (unit : String) (orig : String)
deriving DecidableEq, Repr

/-- The power of two `2 ^ e` as a rational, for an integer exponent. -/
def pow2 (e : Int) : ℚ :=
  if 0 ≤ e then (2 : ℚ) ^ e.toNat else 1 / (2 : ℚ) ^ (-e).toNat

/-- Rounds a rational to the nearest integer, ties to even. -/
def roundHalfEven (x : ℚ) : Int :=
  let f := x.floor
  let d := x - f
  if d < 1 / 2 then f
  else if 1 / 2 < d then f + 1
  else if f % 2 = 0 then f else f + 1

/-- The `float64` nearest to a positive rational (53 bits of precision, ties to
even); exponent range is not modelled, the values at hand are far from its ends. -/
def roundFloat64 (q : ℚ) : ℚ :=
  if q ≤ 0 then 0
  else
    let e0 : Int := (Nat.log2 q.num.natAbs : Int) - (Nat.log2 q.den : Int) - 52
    let e : Int := if q < pow2 (e0 + 52) then e0 - 1 else e0
    (roundHalfEven (q / pow2 e) : ℚ) * pow2 e

/-- The helper `leadingInt` of package `time`: reads the leading digits of `s` as
a number, continuing from `x`; `none` is its overflow error. -/
def leadingInt : List Char → Nat → Option (Nat × List Char)
  | [], x => some (x, [])
  | c :: cs, x =>
    if c < '0' || c > '9' then some (x, c :: cs)
    else if x > 2 ^ 63 / 10 then none
    else
      let x1 := x * 10 + (c.toNat - '0'.toNat)
      if x1 > 2 ^ 63 then none else leadingInt cs x1

/-- The helper `leadingFraction` of package `time`: reads the leading digits of `s`
as the numerator `x` of a fraction with denominator `scale`; digits beyond the
capacity of `x` are read and dropped. -/
def leadingFraction : List Char → Nat → Nat → Bool → Nat × Nat × List Char
  | [], x, scale, _ => (x, scale, [])
  | c :: cs, x, scale, overflow =>
    if c < '0' || c > '9' then (x, scale, c :: cs)
    else if overflow then leadingFraction cs x scale overflow
    else if x > (2 ^ 63 - 1) / 10 then leadingFraction cs x scale true
    else
      let y := x * 10 + (c.toNat - '0'.toNat)
      if y > 2 ^ 63 then leadingFraction cs x scale true
      else leadingFraction cs y (scale * 10) false

/-- The step "consume `(\.[0-9]*)?`" of `time.ParseDuration`: after a dot, the
fraction read by `leadingFraction` and whether it had digits (`post`). -/
def optionalFraction (s : List Char) : Nat × Nat × Bool × List Char :=
  match s with
  | '.' :: t =>
    let (f, scale, s2) := leadingFraction t 0 1 false
    (f, scale, t.length != s2.length, s2)
  | _ => (0, 1, false, s)

/-- The table `unitMap` of package `time`: nanoseconds per unit. -/
def unitMap (u : String) : Option Nat :=
  if u = "ns" then some 1
  else if u = "us" then some 1000
  else if u = "µs" then some 1000
  else if u = "μs" then some 1000
  else if u = "ms" then some 1000000
  else if u = "s" then some 1000000000
  else if u = "m" then some (60 * 1000000000)
  else if u = "h" then some (3600 * 1000000000)
  else none

/-- The loop of `time.ParseDuration` over the terms `[0-9]*(\.[0-9]*)?[a-z]+`; `d`
is the sum so far, a `uint64`. Every turn consumes input; `fuel` bounds the number
of turns and `none` tells that it ran out. -/
def parseDurationLoop (orig : String) :
    Nat → List Char → Nat → Option (Except DurationError Nat)
  | _, [], d => some (.ok d)
  | 0, _ :: _, _ => none
  | fuel + 1, c :: cs, d =>
    if !(c == '.' || ('0' ≤ c && c ≤ '9')) then some (.error (.invalidDuration orig))
    else
      match leadingInt (c :: cs) 0 with
      | none => some (.error (.invalidDuration orig))
      | some (v, s1) =>
        let pre := (c :: cs).length != s1.length
        let (f, scale, post, s2) := optionalFraction s1
        if !pre && !post then some (.error (.invalidDuration orig))
        else
          let (u, s3) := s2.span (fun c => !(c == '.' || ('0' ≤ c && c ≤ '9')))
          if u.length == 0 then some (.error (.missingUnit orig))
          else
            match unitMap (String.mk u) with
            | none => some (.error (.unknownUnit (String.mk u) orig))
            | some unit =>
              if v > 2 ^ 63 / unit then some (.error (.invalidDuration orig))
              else
                let v1 := v * unit
                let v2 :=
                  if f > 0 then
                    (v1 + (roundFloat64 (roundFloat64 f * roundFloat64 ((unit : ℚ) / scale))).floor.toNat)
                      % 2 ^ 64
                  else v1
                if f > 0 && v2 > 2 ^ 63 then some (.error (.invalidDuration orig))
                else
                  let d1 := (d + v2) % 2 ^ 64
                  if d1 > 2 ^ 63 then some (.error (.invalidDuration orig))
                  else parseDurationLoop orig fuel s3 d1

/-- The function `time.ParseDuration`, in nanoseconds. -/
def ParseDuration (s : String) : Except DurationError Int :=
  let orig := s
  let (neg, s1) :=
    match s.data with
    | c :: cs => if c == '-' || c == '+' then (c == '-', cs) else (false, c :: cs)
    | [] => (false, [])
  if s1 = ['0'] then .ok 0
  else if s1 = [] then .error (.invalidDuration orig)
  else
    match parseDurationLoop orig s1.length s1 0 with
    | none => .error (.invalidDuration orig)
    | some (.error e) => .error e
    | some (.ok d) =>
      if neg then .ok (-(d : Int))
      else if d > 2 ^ 63 - 1 then .error (.invalidDuration orig)
      else .ok (d : Int)


/-! ### `validators.go` -/

/-- The validator returned by `validateStringMatchesPattern(pattern)`. -/
def validateStringMatchesPattern (pattern : String) (v : GoValue) (k : Path) :
    Go Diagnostics :=
  match regexpCompile pattern with
  | .error _ =>
    pure [{ Severity := .Error,
            Summary := Sprintf "%q regex does not compile" [.string pattern],
            Detail := Sprintf "%q regex does not compile" [.string pattern],
            AttributePath := [] }]
  | .ok compiledRegex => do
    let errors : Diagnostics := []
    let value ← v.assertString
    if !compiledRegex.MatchString value then
      pure (errors ++ [{ Severity := .Error,
                         Summary := Sprintf "%q doesn't match the pattern (%q): %q"
                           [.path k, .string pattern, .string value],
                         Detail := Sprintf "%q doesn't match the pattern (%q): %q"
                           [.path k, .string pattern, .string value],
                         AttributePath := [] }])
    else
      pure errors

/-- The function `validateDockerContainerPath`. -/
def validateDockerContainerPath (v : GoValue) (k : Path) : Go Diagnostics := do
  let value ← v.assertString
  let re ← regexpMustCompile "^[a-zA-Z]:\\\\|^/"
  if !re.MatchString value then
    pure [{ Severity := .Error,
            Summary := Sprintf "%q must be an absolute path" [.path k],
            Detail := Sprintf "%q must be an absolute path" [.path k],
            AttributePath := [] }]
  else
    pure []

/-- The validator returned by `validateDurationGeq0()`. -/
def validateDurationGeq0 (v : GoValue) (k : Path) : Go Diagnostics := do
  let value ← v.assertString
  match ParseDuration value with
  | .error _ =>
    pure [{ Severity := .Error,
            Summary := Sprintf "%q is not a valid duration" [.path k],
            Detail := Sprintf "%q is not a valid duration" [.path k],
            AttributePath := [] }]
  | .ok dur =>
    if dur < 0 then
      pure [{ Severity := .Error,
              Summary := .lit "duration must not be negative",
              Detail := .lit "duration must not be negative",
              AttributePath := [] }]
    else
      pure []

/-- The validator returned by `validateIntegerGeqThan(threshold)`. -/
def validateIntegerGeqThan (threshold : Int) (v : GoValue) (k : Path) : Go Diagnostics := do
  let value ← v.assertInt
  if value < threshold then
    pure [{ Severity := .Error,
            Summary := Sprintf "%q cannot be lower than %d" [.path k, .int threshold],
            Detail := Sprintf "%q cannot be lower than %d" [.path k, .int threshold],
            AttributePath := [] }]
  else
    pure []

/-! ### Strings (package `strings`)

Modelled from the source of `strings.Index`, `strings.Count`, `strings.Split`
(`genSplit`, `explode`) and `strings.TrimSpace` in the Go standard library, on
sequences of characters (valid UTF-8). -/

/-- The function `strings.Index` on character sequences: the offset of the first
occurrence of `substr` in `s`, `none` (Go: -1) when there is none. -/
def stringsIndex : List Char → List Char → Option Nat
  | [], substr => if substr.isEmpty then some 0 else none
  | c :: cs, substr =>
    if substr.isPrefixOf (c :: cs) then some 0
    else (stringsIndex cs substr).map (fun i => i + 1)

/-- The loop of `strings.Count` for a non-empty `substr`; every turn consumes
input, `fuel` bounds the number of turns. -/
def stringsCountLoop (substr : List Char) : Nat → List Char → Nat
  | 0, _ => 0
  | fuel + 1, s =>
    match stringsIndex s substr with
    | none => 0
    | some i => stringsCountLoop substr fuel (s.drop (i + substr.length)) + 1

/-- The function `strings.Count`: the number of non-overlapping occurrences. -/
def stringsCount (s substr : List Char) : Nat :=
  if substr.isEmpty then s.length + 1 else stringsCountLoop substr s.length s

/-- The loop of `genSplit` (package `strings`): `k` is the number of separators
still to be cut at, `n - 1 - i` in the source. -/
def genSplitLoop (sep : List Char) : Nat → List Char → List (List Char)
  | 0, s => [s]
  | k + 1, s =>
    match stringsIndex s sep with
    | none => [s]
    | some m => s.take m :: genSplitLoop sep k (s.drop (m + sep.length))

/-- The function `strings.Split`: with an empty separator the string is cut into
its characters, otherwise at every occurrence of the separator, left to right. -/
def stringsSplit (s sep : String) : List String :=
  if sep.data.isEmpty then s.data.map (fun c => String.mk [c])
  else (genSplitLoop sep.data (stringsCount s.data sep.data) s.data).map String.mk

/-- The predicate `unicode.IsSpace`. -/
def isSpace (c : Char) : Bool :=
  let n := c.toNat
  (9 ≤ n && n ≤ 13) || n == 32 || n == 0x85 || n == 0xA0 || n == 0x1680
    || (0x2000 ≤ n && n ≤ 0x200a) || n == 0x2028 || n == 0x2029 || n == 0x202f
    || n == 0x205f || n == 0x3000

/-- The function `strings.TrimSpace`. -/
def stringsTrimSpace (s : String) : String :=
  String.mk ((s.data.dropWhile isSpace).reverse.dropWhile isSpace).reverse

/-! ### `resource_podman_container.go`: the env map -/

/-- Index expression `xs[i]` on a slice. -/
def sliceIndex {α : Type} (xs : List α) (i : Nat) : Go α :=
  match xs[i]? with
  | some x => pure x
  | none => throw .indexOutOfRange

/-- The loop of `stringSliceToStringMap`. -/
def stringSliceToStringMapLoop : List String → String → StringMap → Go StringMap
  | [], _, ret => pure ret
  | s :: rest, separator, ret => do
    let slice := stringsSplit s separator
    let key ← sliceIndex slice 0
    let value ← sliceIndex slice 1
    stringSliceToStringMapLoop rest separator
      (ret.set (stringsTrimSpace key) (stringsTrimSpace value))

/-- The function `stringSliceToStringMap`. -/
def stringSliceToStringMap (stringSlice : List String) (separator : String) : Go StringMap :=
  stringSliceToStringMapLoop stringSlice separator []


/-! ### `docker_funcs.go`: sets, maps and DNS servers -/

/-- Type assertion `x.([]interface{})`. -/
def GoValue.assertSlice : GoValue → Go (List GoValue)
  | .slice xs => pure xs
  | _ => throw (.interfaceConversion "[]interface {}")

/-- Type assertion `x.(*schema.Set)`. -/
def GoValue.assertSet : GoValue → Go SchemaSet
  | .set s => pure s
  | _ => throw (.interfaceConversion "*schema.Set")

/-- Type assertion `x.(*uint)`. -/
def GoValue.assertUintPtr : GoValue → Go (Option Nat)
  | .uintPtr p => pure p
  | _ => throw (.interfaceConversion "*uint")

/-- Type assertion `x.(net.IP)`. -/
def GoValue.assertIP : GoValue → Go (List Nat)
  | .ip bytes => pure bytes
  | _ => throw (.interfaceConversion "net.IP")

/-- Comma-ok type assertion `v, ok := x.(int)`. -/
def GoValue.okInt : GoValue → Int × Bool
  | .int i => (i, true)
  | _ => (0, false)

/-- Comma-ok index expression `v, ok := m[key]` on a `map[string]interface{}`. -/
def mapLookup (m : List (String × GoValue)) (key : String) : Option GoValue :=
  (m.find? (fun kv => kv.1 == key)).map (fun kv => kv.2)

/-- The loop of `stringSetToStringSlice`. -/
def stringSetToStringSliceLoop : List GoValue → List String → Go (List String)
  | [], ret => pure ret
  | envVal :: rest, ret => do
    let s ← envVal.assertString
    stringSetToStringSliceLoop rest (ret ++ [s])

/-- The function `stringSetToStringSlice`. -/
def stringSetToStringSlice (stringSet : SchemaSet) : Go (List String) :=
  match stringSet with
  | none => pure []
  | some list => stringSetToStringSliceLoop list []

/-- The loop of `mapTypeMapValsToString`. -/
def mapTypeMapValsToStringLoop : List (String × GoValue) → StringMap → Go StringMap
  | [], mapped => pure mapped
  | (k, v) :: rest, mapped => do
    let s ← v.assertString
    mapTypeMapValsToStringLoop rest (mapped.set k s)

/-- The function `mapTypeMapValsToString`. -/
def mapTypeMapValsToString (typeMap : List (String × GoValue)) : Go StringMap :=
  mapTypeMapValsToStringLoop typeMap []

/-- The loop of `stringSetToDNSServers`. -/
def stringSetToDNSServersLoop : List GoValue → List (List Nat) → Go (List (List Nat))
  | [], ret => pure ret
  | envVal :: rest, ret => do
    let ip ← envVal.assertIP
    stringSetToDNSServersLoop rest (ret ++ [ip])

/-- The function `stringSetToDNSServers`. -/
def stringSetToDNSServers (stringSet : SchemaSet) : Go (List (List Nat)) :=
  match stringSet with
  | none => pure []
  | some list => stringSetToDNSServersLoop list []

/-- The function `stringSetToStringMap`. -/
def stringSetToStringMap (stringSlice : SchemaSet) (separator : String) : Go StringMap := do
  let slice ← stringSetToStringSlice stringSlice
  stringSliceToStringMap slice separator

/-! ### Formatting errors (package `fmt`) -/

/-- The `%s` verbs of a `fmt.Sprintf` format, with operands that are strings or
errors (an error is shown by its message); other text is copied. -/
def formatS : List Char → List String → List Char
  | [], _ => []
  | '%' :: 's' :: rest, a :: args => a.data ++ formatS rest args
  | '%' :: 's' :: rest, [] => "%!s(MISSING)".data ++ formatS rest []
  | c :: rest, args => c :: formatS rest args

/-- The call `fmt.Sprintf(format, args...)` for a format whose verbs are `%s`. -/
def fmtSprintf (format : String) (args : List String) : String :=
  String.mk (formatS format.data args)

/-- The call `fmt.Errorf(format, args...)` for a format whose verbs are `%s`. -/
def fmtErrorf (format : String) (args : List String) : GoError :=
  errorsNew (fmtSprintf format args)

/-! ### Resource data (plugin SDK, `helper/schema`)

Modelled from the documentation of `schema.ResourceData`: `Get` returns the value
of an attribute, the zero value of its type when it is not set and nil when the
key is not in the schema; `GetOk` also tells whether the attribute has been set
to a non-zero value; `SetId` records the identifier of the resource. -/

/-- What the SDK has read for one attribute: its value, and whether it has been
set (and is known). -/
structure FieldValue where
  Value : GoValue
  Exists : Bool

/-- The attributes a `*schema.ResourceData` gives access to. -/
structure ResourceData where
  fields : List (String × FieldValue)

/-- Whether a value is the zero value of its type. -/
def GoValue.isZero : GoValue → Bool
  | .string s => s == ""
  | .int i => i == 0
  | .bool b => !b
  | .slice xs => xs.isEmpty
  | .map kvs => kvs.isEmpty
  | .set (some xs) => xs.isEmpty
  | _ => false

/-- The method `(*schema.ResourceData).Get`. -/
def ResourceData.Get (d : ResourceData) (key : String) : GoValue :=
  match d.fields.find? (fun kv => kv.1 == key) with
  | some kv => kv.2.Value
  | none => .nil

/-- The method `(*schema.ResourceData).GetOk`. -/
def ResourceData.GetOk (d : ResourceData) (key : String) : GoValue × Bool :=
  match d.fields.find? (fun kv => kv.1 == key) with
  | some kv => (kv.2.Value, kv.2.Exists && !kv.2.Value.isZero)
  | none => (.nil, false)

/-! ### Engine-native records, continued (`specgen`, `manifest`, `specs-go`)

The records are restricted to the fields the provider assigns. -/

/-- The record `specgen.Namespace`. -/
structure Namespace where
  NSMode : String := ""
  Value : String := ""
deriving DecidableEq, Repr

/-- The record `specgen.LogConfig`. -/
structure LogConfig where
  Driver : String := ""
  Path : String := ""
  Options : StringMap := []
deriving DecidableEq, Repr

/-- The record `manifest.Schema2HealthConfig`; durations are in nanoseconds. -/
structure Schema2HealthConfig where
  Test : List String := []
  StartPeriod : Int := 0
  Interval : Int := 0
  Timeout : Int := 0
  Retries : Int := 0
deriving DecidableEq, Repr

/-- The record `spec.Mount` of the OCI runtime specification; `Type_` is its field
`Type`. -/
structure Mount where
  Destination : String := ""
  Type_ : String := ""
  Source : String := ""
  Options : List String := []
deriving DecidableEq, Repr

/-- The record `specgen.SpecGenerator`; a nil pointer is `none`. -/
structure SpecGenerator where
  Name : String := ""
  Command : List String := []
  Entrypoint : List String := []
  Terminal : Bool := false
  Env : StringMap := []
  Labels : StringMap := []
  RestartPolicy : String := ""
  RestartRetries : Option Nat := none
  Remove : Bool := false
  PidNS : Namespace := {}
  IpcNS : Namespace := {}
  Sysctl : StringMap := []
  Image : String := ""
  Rootfs : String := ""
  Mounts : List Mount := []
  Volumes : List NamedVolume := []
  WorkDir : String := ""
  ShmSize : Option Int := none
  VolumesFrom : List String := []
  Privileged : Bool := false
  User : String := ""
  Groups : List String := []
  CapAdd : List String := []
  CapDrop : List String := []
  UserNS : Namespace := {}
  ReadOnlyFilesystem : Bool := false
  NetNS : Namespace := {}
  PortMappings : List PortMapping := []
  PublishExposedPorts : Bool := false
  DNSServers : List (List Nat) := []
  DNSSearch : List String := []
  DNSOptions : List String := []
  HostAdd : List String := []
  LogConfiguration : Option LogConfig := none
  HealthConfig : Option Schema2HealthConfig := none
deriving DecidableEq, Repr

/-- The function `specgen.NewSpecGenerator`. -/
def NewSpecGenerator (arg : String) (rootfs : Bool) : SpecGenerator :=
  if rootfs then { Rootfs := arg } else { Image := arg }

/-! ### `client.go`

The engine is reached through the bindings library. A call to it is recorded,
and what it answers is given by an `Engine`, which may take the calls made so far
into account. -/

/-- A call to the bindings library; `ctx` is the context passed. -/
inductive EngineCall where
  /-- The call `bindings.NewConnection(context.Background(), socket)`. -/
  | NewConnection (socket : String)
  /-- The call `images.Pull(ctx, rawImage, entities.ImagePullOptions{})`. -/
  | Pull (ctx : Option String) (rawImage : String)
  /-- The call `containers.CreateWithSpec(ctx, s)`. -/
  | CreateWithSpec (ctx : Option String) (s : SpecGenerator)
  /-- The call `containers.Start(ctx, nameOrID, nil)`. -/
  | Start (ctx : Option String) (nameOrID : String)
  /-- The call `containers.Wait(ctx, nameOrID, &condition)`. -/
  | Wait (ctx : Option String) (nameOrID : String) (condition : String)
deriving DecidableEq, Repr

/-- The answers of the engine; the first argument of each is the list of the calls
made before. A connection is named by a token, an error is `some` or `.error`. -/
structure Engine where
  NewConnection : List EngineCall → String → Except GoError String
  Pull : List EngineCall → Option String → String → Option GoError
  CreateWithSpec : List EngineCall → Option String → SpecGenerator → Except GoError String
  Start : List EngineCall → Option String → String → Option GoError
  Wait : List EngineCall → Option String → String → String → Option GoError

/-- The process environment: the value of `os.Getenv("XDG_RUNTIME_DIR")`. -/
structure Env where
  XDG_RUNTIME_DIR : String

/-- The record `client.Client`; the nil context is `none`. -/
structure Client where
  context : Option String := none
deriving DecidableEq, Repr

/-- The constant `define.ContainerStateRunning`, by its name. -/
def ContainerStateRunning : String := "running"

/-- The method `(*Client).Connect`: the error returned, the client and the calls
made. -/
def Client.Connect (env : Env) (eng : Engine) (c : Client) (calls : List EngineCall) :
    Option GoError × Client × List EngineCall :=
  let sockDir := env.XDG_RUNTIME_DIR
  let socket := "unix:" ++ sockDir ++ "/podman/podman.sock"
  match eng.NewConnection calls socket with
  | .error err => (some err, c, calls ++ [.NewConnection socket])
  | .ok connText => (none, { c with context := some connText }, calls ++ [.NewConnection socket])

/-- The method `(*Client).PullImage`. -/
def Client.PullImage (eng : Engine) (c : Client) (rawImage : String)
    (calls : List EngineCall) : Option GoError × List EngineCall :=
  match eng.Pull calls c.context rawImage with
  | some err => (some err, calls ++ [.Pull c.context rawImage])
  | none => (none, calls ++ [.Pull c.context rawImage])

/-- The method `(*Client).WaitContainer`. -/
def Client.WaitContainer (eng : Engine) (c : Client) (containerId : String)
    (calls : List EngineCall) : Option GoError × List EngineCall :=
  let running := ContainerStateRunning
  match eng.Wait calls c.context containerId running with
  | some err => (some err, calls ++ [.Wait c.context containerId running])
  | none => (none, calls ++ [.Wait c.context containerId running])

/-- The method `(*Client).StartContainer`. -/
def Client.StartContainer (eng : Engine) (c : Client) (containerId : String)
    (calls : List EngineCall) : Option GoError × List EngineCall :=
  match eng.Start calls c.context containerId with
  | some err => (some err, calls ++ [.Start c.context containerId])
  | none => c.WaitContainer eng containerId (calls ++ [.Start c.context containerId])

/-- The method `(*Client).CreateContainer`: the identifier and the error returned,
and the calls made. -/
def Client.CreateContainer (eng : Engine) (c : Client) (s : SpecGenerator)
    (calls : List EngineCall) : (String × Option GoError) × List EngineCall :=
  let s := { s with Terminal := true }
  match eng.CreateWithSpec calls c.context s with
  | .error err => (("", some err), calls ++ [.CreateWithSpec c.context s])
  | .ok id =>
    let (err, calls) := c.StartContainer eng id (calls ++ [.CreateWithSpec c.context s])
    ((id, err), calls)

/-! ### `resource_podman_container.go`: `resourcePodmanContainerCreate`

The body of the function is embedded in the order of the source. Between the
image pull and the call of `CreateContainer` it only reads attributes and fills
the specification; that part is `createSpec`, cut at the places the properties
below refer to. -/

/-- How the filling of the specification stops early: by a panic, or by
`return err`. -/
inductive Abort where
  | panic (p : Panic)
  | fail (err : GoError)
deriving DecidableEq, Repr

/-- Computations that fill the specification. -/
abbrev Build := Except Abort

/-- A computation that may panic, as a step of the filling. -/
def liftGo {α : Type} : Go α → Build α
  | .ok a => .ok a
  | .error p => .error (.panic p)

/-- Conversion `int64(x)` of an integer and arithmetic in `int64`: the value
modulo `2 ^ 64`, between `-2 ^ 63` and `2 ^ 63 - 1`. -/
def wrapInt64 (x : Int) : Int := (x + 2 ^ 63) % 2 ^ 64 - 2 ^ 63

/-- Lines 531 to 541: the new specification and the attributes `privileged`,
`publish_all_ports`, `restart`, `max_retry_count`, `rm`, `read_only`,
`log_driver`. -/
def createSpecBasics (d : ResourceData) (image : String) : Build SpecGenerator := do
  let config := NewSpecGenerator image false
  let privileged ← liftGo (d.Get "privileged").assertBool
  let config := { config with Privileged := privileged }
  let publishAllPorts ← liftGo (d.Get "publish_all_ports").assertBool
  let config := { config with PublishExposedPorts := publishAllPorts }
  let restart ← liftGo (d.Get "restart").assertString
  let config := { config with RestartPolicy := restart }
  let maxRetryCount ← liftGo (d.Get "max_retry_count").assertUintPtr
  let config := { config with RestartRetries := maxRetryCount }
  let rm ← liftGo (d.Get "rm").assertBool
  let config := { config with Remove := rm }
  let readOnly ← liftGo (d.Get "read_only").assertBool
  let config := { config with ReadOnlyFilesystem := readOnly }
  let logDriver ← liftGo (d.Get "log_driver").assertString
  pure { config with LogConfiguration := some { Driver := logDriver } }

/-- Lines 543 to 545: the attribute `env`. -/
def createSpecEnv (d : ResourceData) (config : SpecGenerator) : Build SpecGenerator := do
  let (v, ok) := d.GetOk "env"
  if ok then
    let set ← liftGo v.assertSet
    let env ← liftGo (stringSetToStringMap set "=")
    pure { config with Env := env }
  else
    pure config

/-- Lines 547 to 554: the attribute `command` and the check of its elements. -/
def createSpecCommand (d : ResourceData) (config : SpecGenerator) : Build SpecGenerator := do
  let (v, ok) := d.GetOk "command"
  if ok then
    let list ← liftGo v.assertSlice
    let command ← liftGo (stringListToStringSlice list)
    let config := { config with Command := command }
    if config.Command.any (fun v => v == "") then
      throw (.fail (fmtErrorf "values for command may not be empty" []))
    else
      pure config
  else
    pure config

/-- Lines 556 to 558: the attribute `entrypoint`. -/
def createSpecEntrypoint (d : ResourceData) (config : SpecGenerator) : Build SpecGenerator := do
  let (v, ok) := d.GetOk "entrypoint"
  if ok then
    let list ← liftGo v.assertSlice
    let entrypoint ← liftGo (stringListToStringSlice list)
    pure { config with Entrypoint := entrypoint }
  else
    pure config

/-- Lines 560 to 572: the attributes `user`, `ports`, `working_dir` and `host`. -/
def createSpecUserToHost (d : ResourceData) (config : SpecGenerator) :
    Build SpecGenerator := do
  let (v, ok) := d.GetOk "user"
  let config ←
    if ok then do
      let user ← liftGo v.assertString
      pure { config with User := user }
    else pure config
  let (v, ok) := d.GetOk "ports"
  let config ←
    if ok then do
      let list ← liftGo v.assertSlice
      let portMappings ← liftGo (portSetToPodmanPortMappings list)
      pure { config with PortMappings := portMappings }
    else pure config
  let (v, ok) := d.GetOk "working_dir"
  let config ←
    if ok then do
      let workDir ← liftGo v.assertString
      pure { config with WorkDir := workDir }
    else pure config
  let (v, ok) := d.GetOk "host"
  if ok then
    let set ← liftGo v.assertSet
    let hostAdd ← liftGo (stringSetToStringSlice set)
    pure { config with HostAdd := hostAdd }
  else
    pure config

/-- Lines 574 to 585: the attribute `volumes`; the second component is the local
variable `volumesFrom`. -/
def createSpecVolumes (d : ResourceData) (config : SpecGenerator) :
    Build (SpecGenerator × List String) := do
  let (v, ok) := d.GetOk "volumes"
  let (volumes, volumesFrom) ←
    if ok then do
      let set ← liftGo v.assertSet
      let (volumes, volumesFrom, err) ← liftGo (volumeSetToPodmanVolumes set)
      match err with
      | some err => throw (.fail (fmtErrorf "Unable to parse volumes: %s" [err.msg]))
      | none => pure (volumes, volumesFrom)
    else pure ([], [])
  let config := if volumes.length != 0 then { config with Volumes := volumes } else config
  pure (config, volumesFrom)

/-- The duration `time.ParseDuration` returns along with its error: zero when the
text does not parse. -/
def parsedDurationOrZero (s : String) : Int :=
  match ParseDuration s with
  | .ok dur => dur
  | .error _ => 0

/-- Lines 595 to 612: the loop over the elements of `healthcheck`. -/
def createSpecHealthcheckLoop :
    List GoValue → Schema2HealthConfig → Build Schema2HealthConfig
  | [], healthConfig => pure healthConfig
  | rawHealthCheck :: rest, healthConfig => do
    let rawHealthCheck ← liftGo rawHealthCheck.assertMap
    let healthConfig ←
      match mapLookup rawHealthCheck "test" with
      | some testCommand => do
        let list ← liftGo testCommand.assertSlice
        let test ← liftGo (stringListToStringSlice list)
        pure { healthConfig with Test := test }
      | none => pure healthConfig
    let healthConfig ←
      match mapLookup rawHealthCheck "interval" with
      | some rawInterval => do
        let text ← liftGo rawInterval.assertString
        pure { healthConfig with Interval := parsedDurationOrZero text }
      | none => pure healthConfig
    let healthConfig ←
      match mapLookup rawHealthCheck "timeout" with
      | some rawTimeout => do
        let text ← liftGo rawTimeout.assertString
        pure { healthConfig with Timeout := parsedDurationOrZero text }
      | none => pure healthConfig
    let healthConfig ←
      match mapLookup rawHealthCheck "start_period" with
      | some rawStartPeriod => do
        let text ← liftGo rawStartPeriod.assertString
        pure { healthConfig with StartPeriod := parsedDurationOrZero text }
      | none => pure healthConfig
    let healthConfig :=
      match mapLookup rawHealthCheck "retries" with
      | some rawRetries => { healthConfig with Retries := rawRetries.okInt.1 }
      | none => healthConfig
    createSpecHealthcheckLoop rest healthConfig

/-- Lines 587 to 614: the attributes `labels` and `healthcheck`. -/
def createSpecLabelsHealthcheck (d : ResourceData) (config : SpecGenerator) :
    Build SpecGenerator := do
  let (v, ok) := d.GetOk "labels"
  let config ←
    if ok then do
      let set ← liftGo v.assertSet
      let labels ← liftGo (labelSetToMap set)
      pure { config with Labels := labels }
    else pure config
  let (value, ok) := d.GetOk "healthcheck"
  if ok then
    let healthConfig : Schema2HealthConfig := {}
    let list ← liftGo value.assertSlice
    if list.length > 0 then
      let list ← liftGo value.assertSlice
      let healthConfig ← createSpecHealthcheckLoop list healthConfig
      pure { config with HealthConfig := some healthConfig }
    else
      pure { config with HealthConfig := some healthConfig }
  else
    pure config

/-- Lines 619 to 692: the loop over the elements of `mounts`. -/
def createSpecMountsLoop : List GoValue → List Mount → Build (List Mount)
  | [], mounts => pure mounts
  | rawMount :: rest, mounts => do
    let rawMount ← liftGo rawMount.assertMap
    let target ← liftGo (mapIndex rawMount "target").assertString
    let type ← liftGo (mapIndex rawMount "type").assertString
    let source ← liftGo (mapIndex rawMount "source").assertString
    let mountInstance : Mount := { Destination := target, Type_ := type, Source := source }
    let mountInstance ←
      match mapLookup rawMount "read_only" with
      | some value => do
        let readOnly ← liftGo value.assertBool
        let optionValue := if readOnly then "ro" else "rw"
        pure { mountInstance with Options := mountInstance.Options ++ [optionValue] }
      | none => pure mountInstance
    createSpecMountsLoop rest (mounts ++ [mountInstance])

/-- Lines 616 to 694: the attribute `mounts`. -/
def createSpecMounts (d : ResourceData) (config : SpecGenerator) : Build SpecGenerator := do
  let (value, ok) := d.GetOk "mounts"
  if ok then
    let set ← liftGo value.assertSet
    let list ← liftGo set.List
    let mounts ← createSpecMountsLoop list []
    pure { config with Mounts := mounts }
  else
    pure config

/-- Lines 696 to 707: the local variable `volumesFrom` and the attribute
`capabilities`, of which the first element is read. -/
def createSpecCapabilities (d : ResourceData) (volumesFrom : List String)
    (config : SpecGenerator) : Build SpecGenerator := do
  let config :=
    if volumesFrom.length != 0 then { config with VolumesFrom := volumesFrom } else config
  let (v, ok) := d.GetOk "capabilities"
  if ok then
    let set ← liftGo v.assertSet
    let list ← liftGo set.List
    match list with
    | [] => pure config
    | capInt :: _ =>
      let capa ← liftGo capInt.assertMap
      let add ← liftGo (mapIndex capa "add").assertSet
      let capAdd ← liftGo (stringSetToStringSlice add)
      let config := { config with CapAdd := capAdd }
      let drop ← liftGo (mapIndex capa "drop").assertSet
      let capDrop ← liftGo (stringSetToStringSlice drop)
      pure { config with CapDrop := capDrop }
  else
    pure config

/-- Lines 709 to 711: the attribute `dns`. -/
def createSpecDNS (d : ResourceData) (config : SpecGenerator) : Build SpecGenerator := do
  let (v, ok) := d.GetOk "dns"
  if ok then
    let set ← liftGo v.assertSet
    let servers ← liftGo (stringSetToDNSServers set)
    pure { config with DNSServers := servers }
  else
    pure config

/-- Lines 713 to 761: the attributes `dns_opts`, `dns_search`, `shm_size`,
`log_opts`, `network_mode`, `userns_mode`, `pid_mode`, `sysctls`, `ipc_mode`,
`group_add` and `name`. -/
def createSpecRest (d : ResourceData) (config : SpecGenerator) : Build SpecGenerator := do
  let (v, ok) := d.GetOk "dns_opts"
  let config ←
    if ok then do
      let set ← liftGo v.assertSet
      let options ← liftGo (stringSetToStringSlice set)
      pure { config with DNSOptions := options }
    else pure config
  let (v, ok) := d.GetOk "dns_search"
  let config ←
    if ok then do
      let set ← liftGo v.assertSet
      let search ← liftGo (stringSetToStringSlice set)
      pure { config with DNSSearch := search }
    else pure config
  let (v, ok) := d.GetOk "shm_size"
  let config ←
    if ok then do
      let n ← liftGo v.assertInt
      let size := wrapInt64 (wrapInt64 (wrapInt64 n * 1024) * 1024)
      pure { config with ShmSize := some size }
    else pure config
  let (v, ok) := d.GetOk "log_opts"
  let config ←
    if ok then do
      match config.LogConfiguration with
      | none => throw (.panic .nilDereference)
      | some logConfiguration =>
        let typeMap ← liftGo v.assertMap
        let options ← liftGo (mapTypeMapValsToString typeMap)
        pure { config with
          LogConfiguration := some { logConfiguration with Options := options } }
    else pure config
  let (v, ok) := d.GetOk "network_mode"
  let config ←
    if ok then do
      let mode ← liftGo v.assertString
      pure { config with NetNS := { NSMode := mode } }
    else pure config
  let (v, ok) := d.GetOk "userns_mode"
  let config ←
    if ok then do
      let mode ← liftGo v.assertString
      pure { config with UserNS := { NSMode := mode } }
    else pure config
  let (v, ok) := d.GetOk "pid_mode"
  let config ←
    if ok then do
      let mode ← liftGo v.assertString
      pure { config with PidNS := { NSMode := mode } }
    else pure config
  let (v, ok) := d.GetOk "sysctls"
  let config ←
    if ok then do
      let typeMap ← liftGo v.assertMap
      let sysctl ← liftGo (mapTypeMapValsToString typeMap)
      pure { config with Sysctl := sysctl }
    else pure config
  let (v, ok) := d.GetOk "ipc_mode"
  let config ←
    if ok then do
      let mode ← liftGo v.assertString
      pure { config with IpcNS := { NSMode := mode } }
    else pure config
  let (v, ok) := d.GetOk "group_add"
  let config ←
    if ok then do
      let set ← liftGo v.assertSet
      let groups ← liftGo (stringSetToStringSlice set)
      pure { config with Groups := groups }
    else pure config
  let name ← liftGo (d.Get "name").assertString
  pure { config with Name := name }

/-- Lines 531 to 545: the specification when the check of `command` is reached. -/
def createSpecBeforeCommand (d : ResourceData) (image : String) : Build SpecGenerator :=
  createSpecBasics d image >>= createSpecEnv d

/-- Lines 531 to 572: the specification when `volumes` is reached. -/
def createSpecBeforeVolumes (d : ResourceData) (image : String) : Build SpecGenerator :=
  createSpecBeforeCommand d image >>= createSpecCommand d >>= createSpecEntrypoint d
    >>= createSpecUserToHost d

/-- Lines 531 to 707: the specification when `dns` is reached. -/
def createSpecBeforeDNS (d : ResourceData) (image : String) : Build SpecGenerator := do
  let config ← createSpecBeforeVolumes d image
  let (config, volumesFrom) ← createSpecVolumes d config
  let config ← createSpecLabelsHealthcheck d config
  let config ← createSpecMounts d config
  createSpecCapabilities d volumesFrom config

/-- Lines 531 to 761: the specification handed to `CreateContainer`. -/
def createSpec (d : ResourceData) (image : String) : Build SpecGenerator :=
  createSpecBeforeDNS d image >>= createSpecDNS d >>= createSpecRest d

/-- How a run of `resourcePodmanContainerCreate` ends: with the error returned
(`none` is nil) or a panic, the calls made to the engine, in order, and the
identifier given to `d.SetId` (`none` when `SetId` has not been called). -/
structure Outcome where
  result : Except Panic (Option GoError)
  calls : List EngineCall
  id : Option String

/-- The function `resourcePodmanContainerRead`. -/
def resourcePodmanContainerRead (_d : ResourceData) (_meta : GoValue) : Option GoError :=
  none

/-- Lines 767 to 917: what follows the call of `CreateContainer`, from `d.SetId`
on. The call `d.Set("container_logs", ...)` makes no call to the engine and leaves
the identifier as it is; its result is discarded. -/
def createAfterContainer (eng : Engine) (podmanClient : Client) (d : ResourceData)
    (meta : GoValue) (containerId : String) (calls : List EngineCall) : Outcome :=
  let id := some containerId
  match (d.Get "start").assertBool with
  | .error p => ⟨.error p, calls, id⟩
  | .ok start =>
    let (err, calls) :=
      if start then podmanClient.StartContainer eng containerId calls else (none, calls)
    match err with
    | some err => ⟨.ok (some (fmtErrorf "Unable to start container: %s" [err.msg])), calls, id⟩
    | none =>
      match (d.Get "attach").assertBool with
      | .error p => ⟨.error p, calls, id⟩
      | .ok attach =>
        if attach then
          let (err, calls) := podmanClient.WaitContainer eng containerId calls
          match err with
          | some err =>
            ⟨.ok (some (fmtErrorf "Unable to wait container end of execution: %s" [err.msg])),
              calls, id⟩
          | none =>
            match (d.Get "logs").assertBool with
            | .error p => ⟨.error p, calls, id⟩
            | .ok _ => ⟨.ok (resourcePodmanContainerRead d meta), calls, id⟩
        else
          ⟨.ok (resourcePodmanContainerRead d meta), calls, id⟩

/-- The function `resourcePodmanContainerCreate`. -/
def resourcePodmanContainerCreate (env : Env) (eng : Engine) (d : ResourceData)
    (meta : GoValue) : Outcome :=
  let podmanClient : Client := {}
  let (err, podmanClient, calls) := podmanClient.Connect env eng []
  match err with
  | some err => ⟨.ok (some err), calls, none⟩
  | none =>
    match (d.Get "image").assertString with
    | .error p => ⟨.error p, calls, none⟩
    | .ok image =>
      let (err, calls) := podmanClient.PullImage eng image calls
      match err with
      | some err =>
        ⟨.ok (some (errorsNew (fmtSprintf "Unable to create container with image %s: %s"
          [image, err.msg]))), calls, none⟩
      | none =>
        match createSpec d image with
        | .error (.panic p) => ⟨.error p, calls, none⟩
        | .error (.fail err) => ⟨.ok (some err), calls, none⟩
        | .ok config =>
          let ((containerId, err), calls) := podmanClient.CreateContainer eng config calls
          match err with
          | some err =>
            ⟨.ok (some (fmtErrorf "Unable to create container: %s" [err.msg])), calls, none⟩
          | none => createAfterContainer eng podmanClient d meta containerId calls

/-! ### Attribute values as the declared schema delivers them -/

/-- An element of the `volumes` set: every key of the element schema is present
with a value of its declared type (the zero value when not configured). -/
structure VolumeEntry where
  from_container : String
  container_path : String
  host_path : String
  volume_name : String
  read_only : Bool
deriving DecidableEq, Repr

/-- The `map[string]interface{}` holding a volume entry. -/
def VolumeEntry.toValue (e : VolumeEntry) : GoValue :=
  .map [("from_container", .string e.from_container),
        ("container_path", .string e.container_path),
        ("host_path", .string e.host_path),
        ("volume_name", .string e.volume_name),
        ("read_only", .bool e.read_only)]

/-- The name a volume entry gets: `volume_name`, or `host_path` when that is empty. -/
def VolumeEntry.name (e : VolumeEntry) : String :=
  if e.volume_name = "" then e.host_path else e.volume_name

/-- An entry is malformed when `from_container` and `container_path` are both
empty or both non-empty. -/
def VolumeEntry.malformed (e : VolumeEntry) : Prop :=
  (e.from_container = "" ∧ e.container_path = "") ∨
  (e.from_container ≠ "" ∧ e.container_path ≠ "")

instance (e : VolumeEntry) : Decidable e.malformed := by
  unfold VolumeEntry.malformed; infer_instance

/-- The element of the `labels` set holding one label/value pair. -/
def labelEntry (p : String × String) : GoValue :=
  .map [("label", .string p.1), ("value", .string p.2)]

/-- An element of a list of optional strings: `nil` when absent. -/
def optionalString : Option String → GoValue
  | none => .nil
  | some s => .string s

/-- An element of the `ports` list as the declared schema delivers it: `internal`
and `external` are `TypeInt` attributes and so hold an `int`, `ip` and `protocol`
are `TypeString` attributes (defaults `"0.0.0.0"` and `"tcp"`). -/
structure SchemaPort where
  internal : Int
  external : Int
  ip : String := "0.0.0.0"
  protocol : String := "tcp"
deriving DecidableEq, Repr

/-- The `map[string]interface{}` holding a schema-delivered port entry. -/
def SchemaPort.toValue (e : SchemaPort) : GoValue :=
  .map [("internal", .int e.internal), ("external", .int e.external),
        ("ip", .string e.ip), ("protocol", .string e.protocol)]

/-- A port entry whose `internal` and `external` values, when present, have the
dynamic type `uint16` the coercion asserts; `ip`, when present, is a string. -/
structure PortEntry where
  protocol : String
  internal : Option Nat
  external : Option Nat
  ip : Option String
deriving DecidableEq, Repr

/-- The key/value pair of an optional map element: absent keys are not stored. -/
def optionalField (key : String) : Option GoValue → List (String × GoValue)
  | none => []
  | some v => [(key, v)]

/-- The `map[string]interface{}` holding a port entry. -/
def PortEntry.toValue (e : PortEntry) : GoValue :=
  .map ([("protocol", GoValue.string e.protocol)]
    ++ optionalField "internal" (e.internal.map GoValue.uint16)
    ++ optionalField "external" (e.external.map GoValue.uint16)
    ++ optionalField "ip" (e.ip.map GoValue.string))

/-- The condition the coercion tests: `internal` is present, and so is `external`
or `ip`. -/
def PortEntry.kept (e : PortEntry) : Bool :=
  e.internal.isSome && (e.external.isSome || e.ip.isSome)

/-- The condition in the words of the specification: a non-zero internal port,
and an external port set or an IP set. -/
def PortEntry.specKept (e : PortEntry) : Bool :=
  (e.internal.getD 0 != 0) && (e.external.isSome || e.ip.isSome)

/-- The port mapping that copies an entry field for field; an absent field leaves
the zero value. -/
def PortEntry.mapping (e : PortEntry) : PortMapping :=
  { HostIP := e.ip.getD "", ContainerPort := e.internal.getD 0,
    HostPort := e.external.getD 0, Range := 0, Protocol := e.protocol }

/-- The port mapping the specification expects for a schema-delivered entry. -/
def SchemaPort.specMapping (e : SchemaPort) : PortMapping :=
  { HostIP := e.ip, ContainerPort := e.internal.toNat, HostPort := e.external.toNat,
    Range := 0, Protocol := e.protocol }

/-- The pattern `^(w1|...|wn)$` over the given words. -/
def alternationPattern (words : List String) : String :=
  "^(" ++ "|".intercalate words ++ ")$"

/-- Characters that stand for themselves in a pattern. -/
def isLiteralChar (c : Char) : Bool :=
  !(c == '(' || c == ')' || c == '|' || c == '^' || c == '$' || c == '.' || c == '['
    || c == '\\' || c == '*' || c == '+' || c == '?' || c == '{')

/-- The text of `s` before the first occurrence of `sep` (all of `s` when there is
none). -/
def beforeFirst (s sep : List Char) : List Char :=
  match stringsIndex s sep with
  | some m => s.take m
  | none => s

/-- The text of `s` after the first occurrence of `sep`. -/
def afterFirst (s sep : List Char) : List Char :=
  match stringsIndex s sep with
  | some m => s.drop (m + sep.length)
  | none => []

/-- The attributes of a container resource as the SDK delivers them: every key of
the declared schema with a value of its declared type, the configured one when
the key is in `configured`, the default or the zero value otherwise, and no key
outside the schema. -/
def schemaData (name image : String) (configured : List (String × GoValue)) : ResourceData :=
  ⟨configured.map (fun kv => (kv.1, ⟨kv.2, true⟩)) ++
    [("name", ⟨.string name, true⟩),
     ("image", ⟨.string image, true⟩),
     ("working_dir", ⟨.string "", false⟩),
     ("capabilities", ⟨.set (some []), false⟩),
     ("labels", ⟨.set (some []), false⟩),
     ("entrypoint", ⟨.slice [], false⟩),
     ("user", ⟨.string "", false⟩),
     ("command", ⟨.slice [], false⟩),
     ("env", ⟨.set (some []), false⟩),
     ("mounts", ⟨.set (some []), false⟩),
     ("volumes", ⟨.set (some []), false⟩),
     ("healthcheck", ⟨.slice [], false⟩),
     ("log_driver", ⟨.string "", false⟩),
     ("privileged", ⟨.bool false, false⟩),
     ("dns", ⟨.set (some []), false⟩),
     ("dns_opts", ⟨.set (some []), false⟩),
     ("dns_search", ⟨.set (some []), false⟩),
     ("publish_all_ports", ⟨.bool false, false⟩),
     ("restart", ⟨.string "no", true⟩),
     ("max_retry_count", ⟨.int 0, false⟩),
     ("ports", ⟨.slice [], false⟩),
     ("shm_size", ⟨.int 0, false⟩),
     ("network_mode", ⟨.string "", false⟩),
     ("pid_mode", ⟨.string "", false⟩),
     ("userns_mode", ⟨.string "", false⟩),
     ("sysctls", ⟨.map [], false⟩),
     ("ipc_mode", ⟨.string "", false⟩),
     ("group_add", ⟨.set (some []), false⟩),
     ("log_opts", ⟨.map [], false⟩),
     ("networks_advanced", ⟨.set (some []), false⟩)]⟩

/-- Attributes outside what the schema delivers, with which every read of create
succeeds: `max_retry_count` holds a nil `*uint`, and the keys `rm`, `read_only`,
`start`, `attach` and `logs`, which the schema does not declare, hold booleans. -/
def looseData (name image : String) (start attach : Bool)
    (configured : List (String × GoValue)) : ResourceData :=
  ⟨[("max_retry_count", ⟨.uintPtr none, false⟩),
    ("rm", ⟨.bool false, false⟩),
    ("read_only", ⟨.bool false, false⟩),
    ("start", ⟨.bool start, true⟩),
    ("attach", ⟨.bool attach, true⟩),
    ("logs", ⟨.bool false, false⟩)] ++ (schemaData name image configured).fields⟩

/-- An engine on which every call succeeds; the connection is `conn`, a created
container gets the identifier `c1`. -/
def engineOk : Engine :=
  { NewConnection := fun _ _ => .ok "conn"
    Pull := fun _ _ _ => none
    CreateWithSpec := fun _ _ _ => .ok "c1"
    Start := fun _ _ _ => none
    Wait := fun _ _ _ _ => none }

/-- An engine that cannot be reached. -/
def engineUnreachable : Engine :=
  { engineOk with NewConnection := fun _ _ => .error (errorsNew "connection refused") }

/-- The socket `Connect` dials. -/
def podmanSocket (env : Env) : String :=
  "unix:" ++ env.XDG_RUNTIME_DIR ++ "/podman/podman.sock"

/-! ## Part II: lemmas and theorems -/

theorem len_eq_zero_iff (s : String) : len s = 0 ↔ s = "" := by
  obtain ⟨cs⟩ := s
  cases cs with
  | nil => simp [len, String.utf8ByteSize, String.utf8ByteSize.go]
  | cons c cs =>
    have := Char.utf8Size_pos c
    simp [len, String.utf8ByteSize, String.utf8ByteSize.go]
    constructor
    · intro h; omega
    · intro h; exact absurd h (by simp [String.ext_iff])

/-! ### Volumes -/

theorem len_beq_zero (s : String) : (len s == 0) = decide (s = "") := by
  by_cases h : s = ""
  · simp [h, len, String.utf8ByteSize, String.utf8ByteSize.go]
  · have : len s ≠ 0 := fun h0 => h ((len_eq_zero_iff s).1 h0)
    simp [h, this]

theorem len_bne_zero (s : String) : (len s != 0) = decide (s ≠ "") := by
  by_cases h : s = ""
  · simp [h, len, String.utf8ByteSize, String.utf8ByteSize.go]
  · have : len s ≠ 0 := fun h0 => h ((len_eq_zero_iff s).1 h0)
    simp [h, this]

/-- One iteration of the loop of `volumeSetToPodmanVolumes` on a schema-typed entry. -/
theorem volumeSetToPodmanVolumesLoop_cons (e : VolumeEntry) (rest : List GoValue)
    (vols : List NamedVolume) (froms : List String) :
    volumeSetToPodmanVolumesLoop (e.toValue :: rest) vols froms =
      if e.from_container = "" ∧ e.container_path = "" then
        .ok (vols, froms,
          some (errorsNew "Volume entry without container path or source container"))
      else if e.from_container ≠ "" ∧ e.container_path ≠ "" then
        .ok (vols, froms,
          some (errorsNew "Both a container and a path specified in a volume entry"))
      else if e.from_container ≠ "" then
        volumeSetToPodmanVolumesLoop rest vols (froms ++ [e.from_container])
      else if e.name ≠ "" then
        volumeSetToPodmanVolumesLoop rest
          (vols ++ [{ Name := e.name, Dest := e.container_path,
                      Options := [if e.read_only then "ro" else "rw"] }]) froms
      else volumeSetToPodmanVolumesLoop rest vols froms := by
  have h1 : mapIndex [("from_container", GoValue.string e.from_container),
        ("container_path", .string e.container_path), ("host_path", .string e.host_path),
        ("volume_name", .string e.volume_name), ("read_only", .bool e.read_only)]
        "from_container" = .string e.from_container := rfl
  have h2 : mapIndex [("from_container", GoValue.string e.from_container),
        ("container_path", .string e.container_path), ("host_path", .string e.host_path),
        ("volume_name", .string e.volume_name), ("read_only", .bool e.read_only)]
        "container_path" = .string e.container_path := rfl
  have h3 : mapIndex [("from_container", GoValue.string e.from_container),
        ("container_path", .string e.container_path), ("host_path", .string e.host_path),
        ("volume_name", .string e.volume_name), ("read_only", .bool e.read_only)]
        "volume_name" = .string e.volume_name := rfl
  have h4 : mapIndex [("from_container", GoValue.string e.from_container),
        ("container_path", .string e.container_path), ("host_path", .string e.host_path),
        ("volume_name", .string e.volume_name), ("read_only", .bool e.read_only)]
        "host_path" = .string e.host_path := rfl
  have h5 : mapIndex [("from_container", GoValue.string e.from_container),
        ("container_path", .string e.container_path), ("host_path", .string e.host_path),
        ("volume_name", .string e.volume_name), ("read_only", .bool e.read_only)]
        "read_only" = .bool e.read_only := rfl
  rw [VolumeEntry.toValue, volumeSetToPodmanVolumesLoop]
  simp only [GoValue.assertMap, h1, h2, h3, h4, h5, GoValue.assertString, GoValue.assertBool,
    len_beq_zero, len_bne_zero, VolumeEntry.name, bind_pure_comp, pure_bind, Except.bind,
    bind, pure, Except.pure]
  by_cases hv : e.volume_name = "" <;> by_cases hf : e.from_container = "" <;>
    by_cases hc : e.container_path = "" <;> by_cases hh : e.host_path = "" <;>
    simp [hv, hf, hc, hh, Except.bind, Except.pure]

/-- The loop never panics on schema-typed entries, and it ends with an error exactly
when one of the entries is malformed. -/
theorem volumeSetToPodmanVolumesLoop_error_iff (entries : List VolumeEntry) :
    ∀ (vols : List NamedVolume) (froms : List String),
      ∃ vols1 froms1 err,
        volumeSetToPodmanVolumesLoop (entries.map VolumeEntry.toValue) vols froms
          = .ok (vols1, froms1, err) ∧
        (err ≠ none ↔ ∃ e ∈ entries, e.malformed) := by
  induction entries with
  | nil =>
    intro vols froms
    exact ⟨vols, froms, none, rfl, by simp⟩
  | cons e rest ih =>
    intro vols froms
    rw [List.map_cons, volumeSetToPodmanVolumesLoop_cons]
    by_cases h1 : e.from_container = "" ∧ e.container_path = ""
    · rw [if_pos h1]
      exact ⟨vols, froms, _, rfl, by simp; exact Or.inl (Or.inl h1)⟩
    · rw [if_neg h1]
      by_cases h2 : e.from_container ≠ "" ∧ e.container_path ≠ ""
      · rw [if_pos h2]
        exact ⟨vols, froms, _, rfl, by simp; exact Or.inl (Or.inr h2)⟩
      · rw [if_neg h2]
        have hwf : ¬ e.malformed := by
          intro hm; rcases hm with hm | hm
          · exact h1 hm
          · exact h2 hm
        have key : ∀ vols2 froms2, ∃ vols1 froms1 err,
            volumeSetToPodmanVolumesLoop (rest.map VolumeEntry.toValue) vols2 froms2
              = .ok (vols1, froms1, err) ∧
            (err ≠ none ↔ ∃ x ∈ e :: rest, x.malformed) := by
          intro vols2 froms2
          obtain ⟨v1, f1, err, hr, hiff⟩ := ih vols2 froms2
          refine ⟨v1, f1, err, hr, ?_⟩
          rw [hiff]
          simp [hwf]
        split_ifs <;> exact key _ _

/-- Claim C1. On every collection of volume entries `volumeSetToPodmanVolumes` returns
(it does not panic), and it returns an error if and only if some entry has
`from_container` and `container_path` both empty or both non-empty; in particular
it returns no error when every entry has exactly one of the two. The single entry
`{from_container: "a", container_path: "/data"}` fails with the error
"Both a container and a path specified in a volume entry". -/
theorem volumeSetToPodmanVolumes_error_iff_malformed :
    (∀ entries : List VolumeEntry,
      ∃ vols froms err,
        volumeSetToPodmanVolumes (some (entries.map VolumeEntry.toValue))
          = .ok (vols, froms, err) ∧
        (err ≠ none ↔
          ∃ e ∈ entries,
            (e.from_container = "" ∧ e.container_path = "") ∨
            (e.from_container ≠ "" ∧ e.container_path ≠ "")) ∧
        ((∀ e ∈ entries,
            (e.from_container ≠ "" ∧ e.container_path = "") ∨
            (e.from_container = "" ∧ e.container_path ≠ "")) → err = none)) ∧
    volumeSetToPodmanVolumes
        (some [VolumeEntry.toValue
          { from_container := "a", container_path := "/data", host_path := "",
            volume_name := "", read_only := false }])
      = .ok ([], [],
          some (errorsNew "Both a container and a path specified in a volume entry")) := by
  refine ⟨?_, ?_⟩
  · intro entries
    obtain ⟨vols, froms, err, hr, hiff⟩ := volumeSetToPodmanVolumesLoop_error_iff entries [] []
    refine ⟨vols, froms, err, ?_, hiff, ?_⟩
    · simpa [volumeSetToPodmanVolumes, SchemaSet.List, bind, pure, Except.bind, Except.pure]
        using hr
    · intro hall
      by_contra hne
      obtain ⟨e, he, hm⟩ := hiff.1 hne
      rcases hall e he with ⟨h1, h2⟩ | ⟨h1, h2⟩ <;> rcases hm with ⟨h3, h4⟩ | ⟨h3, h4⟩ <;>
        simp_all
  · simp [volumeSetToPodmanVolumes, SchemaSet.List, bind, pure, Except.bind, Except.pure,
      volumeSetToPodmanVolumesLoop_cons]

/-- On schema-typed entries none of which is malformed, the loop carries on with
the remaining input; what was accumulated before is kept. -/
theorem volumeSetToPodmanVolumesLoop_append (pre : List VolumeEntry)
    (hpre : ∀ p ∈ pre, ¬ p.malformed) (rest : List GoValue) :
    ∀ (vols : List NamedVolume) (froms : List String),
      ∃ vols1 froms1,
        volumeSetToPodmanVolumesLoop (pre.map VolumeEntry.toValue ++ rest) vols froms
          = volumeSetToPodmanVolumesLoop rest (vols ++ vols1) (froms ++ froms1) := by
  induction pre with
  | nil => intro vols froms; exact ⟨[], [], by simp⟩
  | cons e pre ih =>
    intro vols froms
    have hwf : ¬ e.malformed := hpre e (List.mem_cons_self _ _)
    have ih1 := ih (fun p hp => hpre p (List.mem_cons_of_mem _ hp))
    rw [List.map_cons, List.cons_append, volumeSetToPodmanVolumesLoop_cons]
    have h1 : ¬ (e.from_container = "" ∧ e.container_path = "") := fun h => hwf (Or.inl h)
    have h2 : ¬ (e.from_container ≠ "" ∧ e.container_path ≠ "") := fun h => hwf (Or.inr h)
    rw [if_neg h1, if_neg h2]
    by_cases h3 : e.from_container ≠ ""
    · rw [if_pos h3]
      obtain ⟨v1, f1, h⟩ := ih1 vols (froms ++ [e.from_container])
      exact ⟨v1, e.from_container :: f1, by rw [h]; simp⟩
    · rw [if_neg h3]
      by_cases h4 : e.name ≠ ""
      · rw [if_pos h4]
        obtain ⟨v1, f1, h⟩ := ih1 (vols ++ [⟨e.name, e.container_path,
          [if e.read_only then "ro" else "rw"]⟩]) froms
        refine ⟨⟨e.name, e.container_path, [if e.read_only then "ro" else "rw"]⟩ :: v1, f1, ?_⟩
        rw [h]; simp
      · rw [if_neg h4]
        exact ih1 vols froms

/-- The named volumes accumulated so far are part of what the loop returns. -/
theorem volumeSetToPodmanVolumesLoop_keeps (entries : List VolumeEntry) :
    ∀ (vols : List NamedVolume) (froms : List String),
      ∃ vols1 froms1 err,
        volumeSetToPodmanVolumesLoop (entries.map VolumeEntry.toValue) vols froms
          = .ok (vols ++ vols1, froms1, err) := by
  induction entries with
  | nil => intro vols froms; exact ⟨[], froms, none, by simp [volumeSetToPodmanVolumesLoop, pure, Except.pure]⟩
  | cons e rest ih =>
    intro vols froms
    rw [List.map_cons, volumeSetToPodmanVolumesLoop_cons]
    by_cases h1 : e.from_container = "" ∧ e.container_path = ""
    · rw [if_pos h1]; exact ⟨[], froms, _, by rw [List.append_nil]⟩
    · rw [if_neg h1]
      by_cases h2 : e.from_container ≠ "" ∧ e.container_path ≠ ""
      · rw [if_pos h2]; exact ⟨[], froms, _, by rw [List.append_nil]⟩
      · rw [if_neg h2]
        by_cases h3 : e.from_container ≠ ""
        · rw [if_pos h3]; exact ih _ _
        · rw [if_neg h3]
          by_cases h4 : e.name ≠ ""
          · rw [if_pos h4]
            obtain ⟨v1, f1, err, h⟩ := ih (vols ++ [⟨e.name, e.container_path,
              [if e.read_only then "ro" else "rw"]⟩]) froms
            refine ⟨⟨e.name, e.container_path, [if e.read_only then "ro" else "rw"]⟩ :: v1,
              f1, err, ?_⟩
            rw [h]; simp
          · rw [if_neg h4]; exact ih _ _

/-- A path entry with a name contributes its named volume to the result, wherever
it stands after well-formed entries. -/
theorem volumeSetToPodmanVolumes_mem (pre post : List VolumeEntry) (e : VolumeEntry)
    (hpre : ∀ p ∈ pre, ¬ p.malformed)
    (hfrom : e.from_container = "") (hpath : e.container_path ≠ "") (hname : e.name ≠ "") :
    ∃ vols froms err,
      volumeSetToPodmanVolumes (some ((pre ++ e :: post).map VolumeEntry.toValue))
        = .ok (vols, froms, err) ∧
      ({ Name := e.name, Dest := e.container_path,
         Options := [if e.read_only then "ro" else "rw"] } : NamedVolume) ∈ vols := by
  obtain ⟨v1, f1, h1⟩ := volumeSetToPodmanVolumesLoop_append pre hpre
    ((e :: post).map VolumeEntry.toValue) [] []
  obtain ⟨v2, f2, err, h2⟩ := volumeSetToPodmanVolumesLoop_keeps post
    (([] ++ v1) ++ [⟨e.name, e.container_path, [if e.read_only then "ro" else "rw"]⟩])
    ([] ++ f1)
  refine ⟨([] ++ v1) ++
    [⟨e.name, e.container_path, [if e.read_only then "ro" else "rw"]⟩] ++ v2, f2, err, ?_, ?_⟩
  · simp only [volumeSetToPodmanVolumes, SchemaSet.List, bind, pure, Except.bind, Except.pure,
      List.map_append]
    rw [h1, List.map_cons, volumeSetToPodmanVolumesLoop_cons]
    have hn1 : ¬ (e.from_container = "" ∧ e.container_path = "") := fun h => hpath h.2
    have hn2 : ¬ (e.from_container ≠ "" ∧ e.container_path ≠ "") := fun h => h.1 hfrom
    rw [if_neg hn1, if_neg hn2, if_neg (by simpa using hfrom), if_pos hname, h2]
  · simp

/-- Claim C6. A volume entry with empty `from_container` and non-empty `container_path`
yields a named volume whose name is `volume_name` when that is non-empty, and
`host_path` when `volume_name` is empty and `host_path` is not; in both cases the
volume's `Dest` is the entry's `container_path`. This holds for the entry alone
(the result is exactly that volume, no error) and for the entry standing anywhere
after entries that are not malformed (the volume is among those returned). -/
theorem volumeSetToPodmanVolumes_volume_name (pre post : List VolumeEntry) (e : VolumeEntry)
    (hpre : ∀ p ∈ pre,
      ¬ ((p.from_container = "" ∧ p.container_path = "") ∨
         (p.from_container ≠ "" ∧ p.container_path ≠ "")))
    (hfrom : e.from_container = "") (hpath : e.container_path ≠ "") :
    (e.volume_name ≠ "" →
      volumeSetToPodmanVolumes (some [e.toValue])
        = .ok ([{ Name := e.volume_name, Dest := e.container_path,
                  Options := [if e.read_only then "ro" else "rw"] }], [], none) ∧
      ∃ vols froms err,
        volumeSetToPodmanVolumes (some ((pre ++ e :: post).map VolumeEntry.toValue))
          = .ok (vols, froms, err) ∧
        ({ Name := e.volume_name, Dest := e.container_path,
           Options := [if e.read_only then "ro" else "rw"] } : NamedVolume) ∈ vols) ∧
    (e.volume_name = "" → e.host_path ≠ "" →
      volumeSetToPodmanVolumes (some [e.toValue])
        = .ok ([{ Name := e.host_path, Dest := e.container_path,
                  Options := [if e.read_only then "ro" else "rw"] }], [], none) ∧
      ∃ vols froms err,
        volumeSetToPodmanVolumes (some ((pre ++ e :: post).map VolumeEntry.toValue))
          = .ok (vols, froms, err) ∧
        ({ Name := e.host_path, Dest := e.container_path,
           Options := [if e.read_only then "ro" else "rw"] } : NamedVolume) ∈ vols) := by
  have hn1 : ¬ (e.from_container = "" ∧ e.container_path = "") := fun h => hpath h.2
  have hn2 : ¬ (e.from_container ≠ "" ∧ e.container_path ≠ "") := fun h => h.1 hfrom
  have single : e.name ≠ "" →
      volumeSetToPodmanVolumes (some [e.toValue])
        = .ok ([{ Name := e.name, Dest := e.container_path,
                  Options := [if e.read_only then "ro" else "rw"] }], [], none) := by
    intro hname
    simp only [volumeSetToPodmanVolumes, SchemaSet.List, bind, pure, Except.bind, Except.pure]
    rw [volumeSetToPodmanVolumesLoop_cons, if_neg hn1, if_neg hn2,
      if_neg (by simpa using hfrom), if_pos hname]
    simp [volumeSetToPodmanVolumesLoop, pure, Except.pure]
  refine ⟨fun hv => ?_, fun hv hh => ?_⟩
  · have hname : e.name = e.volume_name := by simp [VolumeEntry.name, hv]
    have h := volumeSetToPodmanVolumes_mem pre post e hpre hfrom hpath (by rw [hname]; exact hv)
    rw [hname] at h
    exact ⟨by simpa [hname] using single (by rw [hname]; exact hv), h⟩
  · have hname : e.name = e.host_path := by simp [VolumeEntry.name, hv]
    have h := volumeSetToPodmanVolumes_mem pre post e hpre hfrom hpath (by rw [hname]; exact hh)
    rw [hname] at h
    exact ⟨by simpa [hname] using single (by rw [hname]; exact hh), h⟩

/-- The C6 statement at the entry `{container_path: "/data", host_path: "/srv"}`
standing between a from-container entry and a malformed one: the volume is named
after the host path. -/
theorem volumeSetToPodmanVolumes_volume_name_witness :
    volumeSetToPodmanVolumes (some [VolumeEntry.toValue ⟨"", "/data", "/srv", "", false⟩])
      = .ok ([{ Name := "/srv", Dest := "/data", Options := ["rw"] }], [], none) ∧
    ∃ vols froms err,
      volumeSetToPodmanVolumes (some ((([⟨"db", "", "", "", false⟩] ++
          ⟨"", "/data", "/srv", "", false⟩ :: [⟨"", "", "", "", true⟩] :
            List VolumeEntry)).map VolumeEntry.toValue))
        = .ok (vols, froms, err) ∧
      ({ Name := "/srv", Dest := "/data", Options := ["rw"] } : NamedVolume) ∈ vols :=
  (volumeSetToPodmanVolumes_volume_name
    [⟨"db", "", "", "", false⟩] [⟨"", "", "", "", true⟩] ⟨"", "/data", "/srv", "", false⟩
    (by decide) rfl (by decide)).2 rfl (by decide)

/-! ### Optional strings -/

theorem stringListToStringSliceLoop_eq (xs : List (Option String)) :
    ∀ ret : List String,
      stringListToStringSliceLoop (xs.map optionalString) ret
        = .ok (ret ++ xs.map (fun o => o.getD "")) := by
  induction xs with
  | nil => intro ret; simp [stringListToStringSliceLoop, pure, Except.pure]
  | cons x xs ih =>
    intro ret
    cases x with
    | none => simp [stringListToStringSliceLoop, optionalString, ih]
    | some s =>
      simp [stringListToStringSliceLoop, optionalString, GoValue.assertString, ih, bind,
        Except.bind, pure, Except.pure]

/-- Claim C5. On every list of optional strings `stringListToStringSlice` returns a
sequence of the same length whose position `i` holds the empty string when input
position `i` is absent (nil) and the input string otherwise. -/
theorem stringListToStringSlice_positions (xs : List (Option String)) :
    ∃ out, stringListToStringSlice (xs.map optionalString) = .ok out ∧
      out.length = xs.length ∧
      ∀ i : Nat, (xs[i]? = some none → out[i]? = some "") ∧
           (∀ s, xs[i]? = some (some s) → out[i]? = some s) := by
  refine ⟨xs.map (fun o => o.getD ""), ?_, by simp, ?_⟩
  · simp [stringListToStringSlice, stringListToStringSliceLoop_eq]
  · intro i
    constructor
    · intro h; simp [List.getElem?_map, h]
    · intro s h; simp [List.getElem?_map, h]

/-! ### Validators -/

/-- Claim C10. For every threshold `t` and integer value `v`, the validator returned by
`validateIntegerGeqThan(t)` yields no diagnostics if and only if `v ≥ t`, and
exactly one diagnostic, of severity Error, if and only if `v < t`. -/
theorem validateIntegerGeqThan_iff (t v : Int) (k : Path) :
    (validateIntegerGeqThan t (.int v) k = .ok [] ↔ v ≥ t) ∧
    ((∃ d, validateIntegerGeqThan t (.int v) k = .ok [d] ∧ d.Severity = .Error) ↔ v < t) := by
  by_cases h : v < t
  · have h2 : ¬ t ≤ v := by omega
    simp [validateIntegerGeqThan, GoValue.assertInt, bind, Except.bind, pure, Except.pure, h, h2]
  · have h2 : t ≤ v := by omega
    simp [validateIntegerGeqThan, GoValue.assertInt, bind, Except.bind, pure, Except.pure, h, h2]

/-! ### Ports -/

/-- One iteration of the loop of `portSetToPodmanPortMappings` on an entry with
`uint16` ports. -/
theorem portSetToPodmanPortMappingsLoop_cons (e : PortEntry) (rest : List GoValue)
    (ret : List PortMapping) :
    portSetToPodmanPortMappingsLoop (e.toValue :: rest) ret =
      portSetToPodmanPortMappingsLoop rest (if e.kept then ret ++ [e.mapping] else ret) := by
  obtain ⟨protocol, internal, external, ip⟩ := e
  rw [PortEntry.toValue, portSetToPodmanPortMappingsLoop]
  cases internal <;> cases external <;> cases ip <;>
    simp [GoValue.assertMap, mapIndex, optionalField, GoValue.assertString, GoValue.okUint16,
      GoValue.okString, PortEntry.kept, PortEntry.mapping, bind, Except.bind, pure, Except.pure]

theorem portSetToPodmanPortMappingsLoop_eq (entries : List PortEntry) :
    ∀ ret : List PortMapping,
      portSetToPodmanPortMappingsLoop (entries.map PortEntry.toValue) ret
        = .ok (ret ++ (entries.filter PortEntry.kept).map PortEntry.mapping) := by
  induction entries with
  | nil => intro ret; simp [portSetToPodmanPortMappingsLoop, pure, Except.pure]
  | cons e rest ih =>
    intro ret
    rw [List.map_cons, portSetToPodmanPortMappingsLoop_cons, ih]
    cases h : e.kept <;> simp [List.filter_cons, h]

/-- Claim C2 as stated fails: the entry `{protocol: "tcp", internal: uint16(0),
ip: "0.0.0.0"}` has a zero internal port, so the specification's condition does not
hold for it, and yet `portSetToPodmanPortMappings` emits a mapping for it. -/
theorem portSetToPodmanPortMappings_keeps_zero_internal :
    PortEntry.specKept ⟨"tcp", some 0, none, some "0.0.0.0"⟩ = false ∧
    portSetToPodmanPortMappings [PortEntry.toValue ⟨"tcp", some 0, none, some "0.0.0.0"⟩]
      = .ok [{ HostIP := "0.0.0.0", ContainerPort := 0, HostPort := 0, Range := 0,
               Protocol := "tcp" }] := by
  refine ⟨by decide, ?_⟩
  rw [portSetToPodmanPortMappings, portSetToPodmanPortMappingsLoop_cons]
  rfl

/-- Claim C2, amended: for every list of port entries whose `internal` and `external`
values, when present, are `uint16` values, `portSetToPodmanPortMappings` never
fails, and its output consists, in order, of the mappings of exactly those entries
that have an internal port (zero included) and an external port or an IP; every
other entry is dropped without an error. -/
theorem portSetToPodmanPortMappings_eq_filter (entries : List PortEntry) :
    portSetToPodmanPortMappings (entries.map PortEntry.toValue)
      = .ok ((entries.filter
              (fun e => e.internal.isSome && (e.external.isSome || e.ip.isSome))).map
            (fun e => { HostIP := e.ip.getD "", ContainerPort := e.internal.getD 0,
                        HostPort := e.external.getD 0, Range := 0,
                        Protocol := e.protocol })) := by
  rw [portSetToPodmanPortMappings, portSetToPodmanPortMappingsLoop_eq]
  rfl

/-- One iteration of the loop of `portSetToPodmanPortMappings` on an entry as the
schema delivers it: the `int` held by `internal` is not a `uint16`, the entry is
dropped. -/
theorem portSetToPodmanPortMappingsLoop_schema_cons (e : SchemaPort) (rest : List GoValue)
    (ret : List PortMapping) :
    portSetToPodmanPortMappingsLoop (e.toValue :: rest) ret =
      portSetToPodmanPortMappingsLoop rest ret := by
  rw [SchemaPort.toValue, portSetToPodmanPortMappingsLoop]
  simp [GoValue.assertMap, mapIndex, GoValue.assertString, GoValue.okUint16,
    GoValue.okString, bind, Except.bind, pure, Except.pure]

/-- Claim C3, what the code does: on a `ports` attribute as the declared schema
delivers it (`internal` and `external` hold an `int`), `portSetToPodmanPortMappings`
returns no port mapping at all; for `ports = [{internal: 80, external: 8080}]` with
the defaults of `ip` and `protocol` the result is empty, not
`[{ContainerPort: 80, HostPort: 8080, Protocol: "tcp", HostIP: "0.0.0.0"}]`. -/
theorem portSetToPodmanPortMappings_schema_ports_dropped :
    (∀ ports : List SchemaPort,
      portSetToPodmanPortMappings (ports.map SchemaPort.toValue) = .ok []) ∧
    portSetToPodmanPortMappings
        [SchemaPort.toValue { internal := 80, external := 8080 }] = .ok [] ∧
    portSetToPodmanPortMappings [SchemaPort.toValue { internal := 80, external := 8080 }]
      ≠ .ok [SchemaPort.specMapping { internal := 80, external := 8080 }] ∧
    SchemaPort.specMapping { internal := 80, external := 8080 }
      = { HostIP := "0.0.0.0", ContainerPort := 80, HostPort := 8080, Range := 0,
          Protocol := "tcp" } := by
  have all : ∀ (ports : List SchemaPort) (ret : List PortMapping),
      portSetToPodmanPortMappingsLoop (ports.map SchemaPort.toValue) ret = .ok ret := by
    intro ports
    induction ports with
    | nil => intro ret; rfl
    | cons e rest ih =>
      intro ret
      rw [List.map_cons, portSetToPodmanPortMappingsLoop_schema_cons, ih]
  have one : portSetToPodmanPortMappings
      [SchemaPort.toValue { internal := 80, external := 8080 }] = .ok [] :=
    all [{ internal := 80, external := 8080 }] []
  refine ⟨fun ports => all ports [], one, ?_, by decide⟩
  rw [one]
  simp

/-! ### Labels -/

theorem StringMap.get?_set_self (m : StringMap) (k v : String) :
    (m.set k v).get? k = some v := by
  have h : List.find? (fun kv : String × String => kv.1 == k)
      (List.filter (fun kv => kv.1 != k) m) = none := by
    rw [List.find?_eq_none]
    intro x hx
    have := (List.mem_filter.1 hx).2
    simpa using this
  simp [StringMap.get?, StringMap.set, List.find?_append, h]

theorem StringMap.get?_set_other (m : StringMap) (k v k1 : String) (h : k1 ≠ k) :
    (m.set k v).get? k1 = m.get? k1 := by
  have hf : ∀ l : StringMap, List.find? (fun kv : String × String => kv.1 == k1)
      (List.filter (fun kv => kv.1 != k) l) = List.find? (fun kv => kv.1 == k1) l := by
    intro l
    induction l with
    | nil => rfl
    | cons x xs ih =>
      have hkk : ¬ k = k1 := fun h1 => h h1.symm
      by_cases hx : x.1 = k
      · simp [List.filter_cons, List.find?_cons, hx, hkk, ih]
      · by_cases hx1 : x.1 = k1
        · have hx2 : (x.1 == k1) = true := by simpa using hx1
          have hx3 : (x.1 != k) = true := by simpa using hx
          rw [List.filter_cons, if_pos hx3, List.find?_cons, hx2, List.find?_cons, hx2]
        · have hx2 : (x.1 == k1) = false := by simpa using hx1
          have hx3 : (x.1 != k) = true := by simpa using hx
          rw [List.filter_cons, if_pos hx3, List.find?_cons, hx2, List.find?_cons, hx2]
          exact ih
  have hk : ¬ k = k1 := fun h1 => h h1.symm
  simp only [StringMap.get?, StringMap.set, List.find?_append, hf]
  cases hfind : List.find? (fun kv : String × String => kv.1 == k1) m with
  | some kv => simp
  | none => simp [List.find?_cons, hk]

theorem StringMap.mem_keys_set (m : StringMap) (k v k1 : String) :
    k1 ∈ (m.set k v).keys ↔ k1 = k ∨ k1 ∈ m.keys := by
  simp only [StringMap.keys, StringMap.set, List.map_append, List.mem_append, List.mem_map,
    List.mem_filter, List.map_cons, List.map_nil, List.mem_singleton]
  constructor
  · rintro (⟨a, ⟨ha, -⟩, rfl⟩ | h)
    · exact Or.inr ⟨a, ha, rfl⟩
    · exact Or.inl h
  · rintro (h | ⟨a, ha, rfl⟩)
    · exact Or.inr h
    · by_cases hk : a.1 = k
      · exact Or.inr hk
      · exact Or.inl ⟨a, ⟨ha, by simpa using hk⟩, rfl⟩

theorem StringMap.nodup_keys_set (m : StringMap) (k v : String) (h : m.keys.Nodup) :
    (m.set k v).keys.Nodup := by
  simp only [StringMap.keys, StringMap.set, List.map_append, List.map_cons, List.map_nil]
  rw [List.nodup_append]
  refine ⟨?_, List.nodup_singleton _, ?_⟩
  · exact (List.Nodup.sublist ((List.filter_sublist m).map _) h)
  · intro a ha hb
    rw [List.mem_singleton] at hb
    subst hb
    rw [List.mem_map] at ha
    obtain ⟨x, hx, rfl⟩ := ha
    simpa using (List.mem_filter.1 hx).2

/-- The loop of `labelSetToMap` performs the assignments in sequence order. -/
theorem labelSetToMapLoop_eq (pairs : List (String × String)) :
    ∀ mapped : StringMap,
      labelSetToMapLoop (pairs.map labelEntry) mapped
        = .ok (pairs.foldl (fun m p => m.set p.1 p.2) mapped) := by
  induction pairs with
  | nil => intro mapped; rfl
  | cons p rest ih =>
    intro mapped
    have h1 : mapIndex [("label", GoValue.string p.1), ("value", .string p.2)] "label"
        = .string p.1 := rfl
    have h2 : mapIndex [("label", GoValue.string p.1), ("value", .string p.2)] "value"
        = .string p.2 := rfl
    rw [List.map_cons, labelEntry, labelSetToMapLoop]
    simp only [GoValue.assertMap, labelToPair, h1, h2, GoValue.assertString, bind, Except.bind,
      pure, Except.pure, List.foldl_cons]
    exact ih _

theorem foldl_set_mem_keys (pairs : List (String × String)) :
    ∀ (m : StringMap) (k : String),
      k ∈ (pairs.foldl (fun m p => StringMap.set m p.1 p.2) m).keys
        ↔ k ∈ m.keys ∨ ∃ v, (k, v) ∈ pairs := by
  induction pairs with
  | nil => intro m k; simp
  | cons p rest ih =>
    intro m k
    rw [List.foldl_cons, ih, StringMap.mem_keys_set]
    constructor
    · rintro ((h | h) | ⟨v, hv⟩)
      · exact Or.inr ⟨p.2, by rw [h]; exact List.mem_cons_self _ _⟩
      · exact Or.inl h
      · exact Or.inr ⟨v, List.mem_cons_of_mem _ hv⟩
    · rintro (h | ⟨v, hv⟩)
      · exact Or.inl (Or.inr h)
      · rcases List.mem_cons.1 hv with h | h
        · exact Or.inl (Or.inl (by rw [← h]))
        · exact Or.inr ⟨v, h⟩

theorem foldl_set_get?_of_not_mem (post : List (String × String)) :
    ∀ (m : StringMap) (k : String), (∀ p ∈ post, p.1 ≠ k) →
      (post.foldl (fun m p => StringMap.set m p.1 p.2) m).get? k = m.get? k := by
  induction post with
  | nil => intro m k _; rfl
  | cons p rest ih =>
    intro m k h
    rw [List.foldl_cons, ih _ _ (fun q hq => h q (List.mem_cons_of_mem _ hq))]
    exact StringMap.get?_set_other _ _ _ _ (fun hk => h p (List.mem_cons_self _ _) hk.symm)

theorem foldl_set_nodup (pairs : List (String × String)) :
    ∀ m : StringMap, m.keys.Nodup →
      (pairs.foldl (fun m p => StringMap.set m p.1 p.2) m).keys.Nodup := by
  induction pairs with
  | nil => intro m h; exact h
  | cons p rest ih =>
    intro m h
    rw [List.foldl_cons]
    exact ih _ (StringMap.nodup_keys_set _ _ _ h)

/-- Claim C4. For every sequence of label/value pairs (in the set's iteration order)
`labelSetToMap` returns a map whose keys are exactly the labels occurring in the
sequence, each once, and in which each key maps to the value of the last pair
carrying that label. The sequence `[(a,1),(a,2)]` yields `{a: 2}`. -/
theorem labelSetToMap_last_wins :
    (∀ pairs : List (String × String),
      ∃ m : StringMap, labelSetToMap (some (pairs.map labelEntry)) = .ok m ∧
        (∀ k, k ∈ m.keys ↔ ∃ v, (k, v) ∈ pairs) ∧
        m.keys.Nodup ∧
        (∀ pre k v post, pairs = pre ++ (k, v) :: post → (∀ p ∈ post, p.1 ≠ k) →
          m.get? k = some v)) ∧
    labelSetToMap (some ([("a", "1"), ("a", "2")].map labelEntry)) = .ok [("a", "2")] := by
  have run : ∀ pairs : List (String × String),
      labelSetToMap (some (pairs.map labelEntry))
        = .ok (pairs.foldl (fun m p => StringMap.set m p.1 p.2) []) := by
    intro pairs
    simp only [labelSetToMap, SchemaSet.List, bind, Except.bind, pure, Except.pure]
    exact labelSetToMapLoop_eq pairs []
  refine ⟨fun pairs => ⟨_, run pairs, ?_, ?_, ?_⟩, ?_⟩
  · intro k
    rw [foldl_set_mem_keys]
    simp [StringMap.keys]
  · exact foldl_set_nodup pairs [] (by simp [StringMap.keys])
  · intro pre k v post hp hpost
    rw [hp, List.foldl_append, List.foldl_cons, foldl_set_get?_of_not_mem post _ k hpost]
    exact StringMap.get?_set_self _ _ _
  · rw [run]; rfl

/-! ### Regular expressions -/

theorem inRanges_letters (c : Char) :
    inRanges [('a', 'z'), ('A', 'Z')] c = c.isAlpha := by
  have ha : ('a' : Char).val = 97 := rfl
  have hz : ('z' : Char).val = 122 := rfl
  have hA : ('A' : Char).val = 65 := rfl
  have hZ : ('Z' : Char).val = 90 := rfl
  simp only [inRanges, List.any_cons, List.any_nil, Bool.or_false, ha, hz, hA, hZ,
    Char.isAlpha, Char.isUpper, Char.isLower, ge_iff_le]
  rw [Bool.or_comm]

/-- The expression the pattern of `validateDockerContainerPath` compiles to. -/
theorem regexpCompile_dockerPath :
    regexpCompile "^[a-zA-Z]:\\\\|^/" =
      .ok (.alt
        (.cat .beginText (.cat (.cls false [('a', 'z'), ('A', 'Z')])
          (.cat (.char ':') (.cat (.char '\\') .empty))))
        (.alt (.cat .beginText (.cat (.char '/') .empty)) .noMatch)) := rfl

/-- An expression whose alternatives all begin with `^` matches at offset 0 only. -/
theorem search_dockerPath_pos (cs : List Char) :
    ∀ pos, pos ≠ 0 →
      Regex.search (.alt
        (.cat .beginText (.cat (.cls false [('a', 'z'), ('A', 'Z')])
          (.cat (.char ':') (.cat (.char '\\') .empty))))
        (.alt (.cat .beginText (.cat (.char '/') .empty)) .noMatch)) pos cs = false := by
  induction cs with
  | nil => intro pos h; simp [Regex.search, Regex.matchFrom, h]
  | cons c cs ih =>
    intro pos h
    simp [Regex.search, Regex.matchFrom, h, ih (pos + 1) (by omega)]

theorem search_dockerPath (cs : List Char) :
    Regex.search (.alt
        (.cat .beginText (.cat (.cls false [('a', 'z'), ('A', 'Z')])
          (.cat (.char ':') (.cat (.char '\\') .empty))))
        (.alt (.cat .beginText (.cat (.char '/') .empty)) .noMatch)) 0 cs = true ↔
      (∃ rest, cs = '/' :: rest) ∨
      (∃ c rest, cs = c :: ':' :: '\\' :: rest ∧ c.isAlpha = true) := by
  cases cs with
  | nil => simp [Regex.search, Regex.matchFrom]
  | cons c cs =>
    rw [Regex.search, search_dockerPath_pos cs 1 (by omega)]
    simp only [Regex.matchFrom, inRanges_letters, Bool.or_false, beq_self_eq_true,
      Bool.true_and]
    rcases cs with _ | ⟨c2, _ | ⟨c3, cs⟩⟩ <;> simp
    aesop

/-- Claim C8. For every string value `validateDockerContainerPath` returns no
diagnostics if and only if the value starts with `/` or starts with one ASCII
letter followed by `:` and a backslash; otherwise it returns exactly one
diagnostic, of severity Error. -/
theorem validateDockerContainerPath_iff (value : String) (k : Path) :
    (validateDockerContainerPath (.string value) k = .ok [] ↔
      ((∃ rest, value.data = '/' :: rest) ∨
       (∃ c rest, value.data = c :: ':' :: '\\' :: rest ∧ c.isAlpha = true))) ∧
    ((∃ d, validateDockerContainerPath (.string value) k = .ok [d] ∧ d.Severity = .Error) ↔
      ¬ ((∃ rest, value.data = '/' :: rest) ∨
         (∃ c rest, value.data = c :: ':' :: '\\' :: rest ∧ c.isAlpha = true))) := by
  rw [← search_dockerPath]
  simp only [validateDockerContainerPath, GoValue.assertString, regexpMustCompile,
    regexpCompile_dockerPath, Regex.MatchString, bind, Except.bind, pure, Except.pure]
  cases h : Regex.search (.alt
        (.cat .beginText (.cat (.cls false [('a', 'z'), ('A', 'Z')])
          (.cat (.char ':') (.cat (.char '\\') .empty))))
        (.alt (.cat .beginText (.cat (.char '/') .empty)) .noMatch)) 0 value.data <;> simp

theorem intercalate_go_data (sep : String) (l : List String) :
    ∀ acc : String,
      (String.intercalate.go acc sep l).data
        = acc.data ++ l.flatMap (fun x => sep.data ++ x.data) := by
  induction l with
  | nil => intro acc; simp [String.intercalate.go]
  | cons a l ih =>
    intro acc
    rw [String.intercalate.go, ih]
    simp [String.data_append, List.flatMap_cons]

theorem alternationPattern_data (w : String) (ws : List String) :
    (alternationPattern (w :: ws)).data
      = '^' :: '(' :: (w.data ++ ws.flatMap (fun x => '|' :: x.data) ++ [')', '$']) := by
  have h1 : ("^(" : String).data = ['^', '('] := rfl
  have h2 : (")$" : String).data = [')', '$'] := rfl
  have h3 : ("|" : String).data = ['|'] := rfl
  simp only [alternationPattern, String.intercalate, String.data_append, intercalate_go_data,
    h1, h2, h3]
  simp

/-- A literal character in normal mode becomes an atom of the current alternative. -/
theorem parseLoop_literal (c : Char) (hc : isLiteralChar c = true) (cs : List Char)
    (top : Frame) (stack : List Frame) :
    parseLoop (c :: cs) .normal top stack
      = parseLoop cs .normal (top.push (.char c)) stack := by
  simp only [isLiteralChar, Bool.not_eq_true', Bool.or_eq_false_iff, beq_eq_false_iff_ne,
    ne_eq] at hc
  obtain ⟨⟨⟨⟨⟨⟨⟨⟨⟨⟨⟨h1, h2⟩, h3⟩, h4⟩, h5⟩, h6⟩, h7⟩, h8⟩, h9⟩, h10⟩, h11⟩, h12⟩ := hc
  simp [parseLoop, h1, h2, h3, h4, h5, h6, h7, h8, h9, h10, h11, h12]

theorem parseLoop_word (w : List Char) (cs : List Char) (stack : List Frame) :
    ∀ top : Frame, (∀ c ∈ w, isLiteralChar c = true) →
      parseLoop (w ++ cs) .normal top stack
        = parseLoop cs .normal ⟨top.alts, (w.map Regex.char).reverse ++ top.cur⟩ stack := by
  induction w with
  | nil => intro top _; rfl
  | cons c w ih =>
    intro top h
    rw [List.cons_append, parseLoop_literal c (h c (List.mem_cons_self _ _)),
      ih _ (fun x hx => h x (List.mem_cons_of_mem _ hx))]
    simp [Frame.push]

/-- Reading `w1|...|wn)` inside a group gives the alternation of the words to the
group around it. -/
theorem parseLoop_words (ws : List (List Char)) (cs : List Char) (parent : Frame)
    (stack : List Frame) :
    ∀ (w : List Char) (alts : List Regex), (∀ x ∈ w :: ws, ∀ c ∈ x, isLiteralChar c = true) →
      parseLoop (w ++ ws.flatMap (fun x => '|' :: x) ++ ')' :: cs) .normal ⟨alts, []⟩
          (parent :: stack)
        = parseLoop cs .normal
            (parent.push (Regex.alternate
              (alts.reverse ++ (w :: ws).map (fun x => Regex.concat (x.map Regex.char)))))
            stack := by
  induction ws with
  | nil =>
    intro w alts h
    rw [List.flatMap_nil, List.append_nil, parseLoop_word w _ _ _ (h w (List.mem_cons_self _ _)),
      parseLoop]
    simp [Frame.close]
  | cons w1 ws ih =>
    intro w alts h
    rw [List.flatMap_cons, List.append_assoc, parseLoop_word w _ _ _ (h w (List.mem_cons_self _ _)),
      List.cons_append, List.cons_append, parseLoop]
    simp only [List.append_nil, List.reverse_reverse]
    have := ih w1 (Regex.concat (w.map Regex.char) :: alts)
      (fun x hx => h x (List.mem_cons_of_mem _ hx))
    simp only [List.append_assoc] at this
    simp [this]

/-- The pattern `^(w1|...|wn)$` over literal words compiles, to the anchored
alternation of the words. -/
theorem regexpCompile_alternationPattern (w : String) (ws : List String)
    (h : ∀ x ∈ w :: ws, ∀ c ∈ x.data, isLiteralChar c = true) :
    regexpCompile (alternationPattern (w :: ws))
      = .ok (.alt (.cat .beginText
          (.cat (Regex.alternate ((w :: ws).map (fun x => Regex.concat (x.data.map Regex.char))))
            (.cat .endText .empty))) .noMatch) := by
  have hl : ∀ x ∈ w.data :: ws.map String.data, ∀ c ∈ x, isLiteralChar c = true := by
    intro x hx c hc
    rcases List.mem_cons.1 hx with rfl | hx
    · exact h w (List.mem_cons_self _ _) c hc
    · obtain ⟨y, hy, rfl⟩ := List.mem_map.1 hx
      exact h y (List.mem_cons_of_mem _ hy) c hc
  have hflat : ws.flatMap (fun x => '|' :: x.data)
      = (ws.map String.data).flatMap (fun x => '|' :: x) := by
    simp [List.flatMap_map]
  have key := parseLoop_words (ws.map String.data) ['$'] ((⟨[], []⟩ : Frame).push .beginText) []
    w.data [] hl
  rw [regexpCompile, alternationPattern_data, hflat]
  have h1 : parseLoop ('^' :: '(' :: (w.data ++ (ws.map String.data).flatMap (fun x => '|' :: x)
      ++ [')', '$'])) .normal ⟨[], []⟩ []
      = parseLoop (w.data ++ (ws.map String.data).flatMap (fun x => '|' :: x) ++ ')' :: ['$'])
          .normal ⟨[], []⟩ [(⟨[], []⟩ : Frame).push .beginText] := by
    simp [parseLoop]
  rw [h1, key]
  simp [parseLoop, Frame.push, Frame.close, Regex.alternate, Regex.concat, List.map_map,
    Function.comp_def]

theorem matchFrom_word (w : List Char) (k : Nat → List Char → Bool) :
    ∀ (pos : Nat) (rest : List Char),
      (Regex.concat (w.map Regex.char)).matchFrom pos rest k = true ↔
        ∃ r, rest = w ++ r ∧ k (pos + w.length) r = true := by
  induction w with
  | nil => intro pos rest; simp [Regex.concat, Regex.matchFrom]
  | cons c w ih =>
    intro pos rest
    cases rest with
    | nil => simp [Regex.concat, Regex.matchFrom]
    | cons x xs =>
      simp only [List.map_cons, Regex.concat, Regex.matchFrom, Bool.and_eq_true, beq_iff_eq, ih,
        List.cons_append, List.cons.injEq, List.length_cons]
      constructor
      · rintro ⟨rfl, r, rfl, hk⟩
        exact ⟨r, ⟨rfl, rfl⟩, by rw [← hk]; congr 1; omega⟩
      · rintro ⟨r, ⟨rfl, rfl⟩, hk⟩
        exact ⟨rfl, r, rfl, by rw [← hk]; congr 1; omega⟩

theorem matchFrom_alternate (rs : List Regex) (pos : Nat) (rest : List Char)
    (k : Nat → List Char → Bool) :
    (Regex.alternate rs).matchFrom pos rest k = true ↔
      ∃ r ∈ rs, r.matchFrom pos rest k = true := by
  induction rs with
  | nil => simp [Regex.alternate, Regex.matchFrom]
  | cons r rs ih => simp [Regex.alternate, Regex.matchFrom, ih]

theorem matchFrom_anchoredWords (words : List (List Char)) (pos : Nat) (rest : List Char) :
    Regex.matchFrom (.alt (.cat .beginText
        (.cat (Regex.alternate (words.map (fun x => Regex.concat (x.map Regex.char))))
          (.cat .endText .empty))) .noMatch) pos rest (fun _ _ => true) = true ↔
      pos = 0 ∧ rest ∈ words := by
  simp only [Regex.matchFrom, Bool.or_false, Bool.and_eq_true, beq_iff_eq, matchFrom_alternate,
    List.mem_map, Bool.and_true]
  constructor
  · rintro ⟨hp, r, ⟨w, hw, rfl⟩, hm⟩
    obtain ⟨t, rfl, ht⟩ := (matchFrom_word w _ pos rest).1 hm
    have : t = [] := by simpa using ht
    subst this
    exact ⟨hp, by simpa using hw⟩
  · rintro ⟨hp, hw⟩
    refine ⟨hp, _, ⟨rest, hw, rfl⟩, ?_⟩
    exact (matchFrom_word rest _ pos rest).2 ⟨[], by simp, by simp⟩

theorem search_anchoredWords (words : List (List Char)) (cs : List Char) :
    Regex.search (.alt (.cat .beginText
        (.cat (Regex.alternate (words.map (fun x => Regex.concat (x.map Regex.char))))
          (.cat .endText .empty))) .noMatch) 0 cs = true ↔ cs ∈ words := by
  have later : ∀ (rest : List Char) (pos : Nat), pos ≠ 0 →
      Regex.search (.alt (.cat .beginText
        (.cat (Regex.alternate (words.map (fun x => Regex.concat (x.map Regex.char))))
          (.cat .endText .empty))) .noMatch) pos rest = false := by
    intro rest
    induction rest with
    | nil =>
      intro pos hp
      rw [Regex.search, Bool.eq_false_iff, ne_eq, matchFrom_anchoredWords]
      exact fun h => hp h.1
    | cons c rest ih =>
      intro pos hp
      rw [Regex.search, Bool.or_eq_false_iff, ih (pos + 1) (by omega), Bool.eq_false_iff, ne_eq,
        matchFrom_anchoredWords]
      exact ⟨fun h => hp h.1, rfl⟩
  cases cs with
  | nil => rw [Regex.search, matchFrom_anchoredWords]; simp
  | cons c cs =>
    rw [Regex.search, later cs 1 (by omega), Bool.or_false, matchFrom_anchoredWords]; simp

/-- The validator of a pattern `^(w1|...|wn)$` over literal words accepts exactly
the words. -/
theorem validateStringMatchesPattern_words (w : String) (ws : List String)
    (h : ∀ x ∈ w :: ws, ∀ c ∈ x.data, isLiteralChar c = true) (value : String) (k : Path) :
    (validateStringMatchesPattern (alternationPattern (w :: ws)) (.string value) k = .ok [] ↔
      value ∈ w :: ws) ∧
    ((∃ d, validateStringMatchesPattern (alternationPattern (w :: ws)) (.string value) k
          = .ok [d] ∧ d.Severity = .Error ∧ d.AttributePath = []) ↔
      value ∉ w :: ws) := by
  have hs := search_anchoredWords ((w :: ws).map String.data) value.data
  have hmem : value.data ∈ (w :: ws).map String.data ↔ value ∈ w :: ws := by
    rw [List.mem_map]
    constructor
    · rintro ⟨x, hx, hd⟩
      have : x = value := String.ext hd
      exact this ▸ hx
    · intro hv; exact ⟨value, hv, rfl⟩
  rw [← hmem, ← hs]
  simp only [validateStringMatchesPattern, regexpCompile_alternationPattern w ws h,
    GoValue.assertString, Regex.MatchString, bind, Except.bind, pure, Except.pure,
    List.map_map, Function.comp_def]
  cases hsearch : Regex.search (.alt (.cat .beginText
        (.cat (Regex.alternate ((w :: ws).map (fun x => Regex.concat (x.data.map Regex.char))))
          (.cat .endText .empty))) .noMatch) 0 value.data <;> simp

/-- Claim C7. For a pattern of the form `^(w1|...|wn)$` over literal words the
validator returned by `validateStringMatchesPattern` yields no diagnostics if and
only if the value is exactly one of the words, and otherwise yields exactly one
diagnostic, of severity Error and with an empty attribute path. This holds in
general and so for the pattern of the test, of the mount type and of `restart`. -/
theorem validateStringMatchesPattern_alternation :
    (∀ (w : String) (ws : List String) (value : String) (k : Path),
      (∀ x ∈ w :: ws, ∀ c ∈ x.data, isLiteralChar c = true) →
      (validateStringMatchesPattern (alternationPattern (w :: ws)) (.string value) k = .ok [] ↔
        value ∈ w :: ws) ∧
      ((∃ d, validateStringMatchesPattern (alternationPattern (w :: ws)) (.string value) k
            = .ok [d] ∧ d.Severity = .Error ∧ d.AttributePath = []) ↔
        value ∉ w :: ws)) ∧
    (∀ (value : String) (k : Path),
      (validateStringMatchesPattern "^(pause|continue-mate|break)$" (.string value) k = .ok [] ↔
        value ∈ ["pause", "continue-mate", "break"]) ∧
      ((∃ d, validateStringMatchesPattern "^(pause|continue-mate|break)$" (.string value) k
            = .ok [d] ∧ d.Severity = .Error ∧ d.AttributePath = []) ↔
        value ∉ ["pause", "continue-mate", "break"])) ∧
    (∀ (value : String) (k : Path),
      (validateStringMatchesPattern "^(bind|volume|tmpfs)$" (.string value) k = .ok [] ↔
        value ∈ ["bind", "volume", "tmpfs"]) ∧
      ((∃ d, validateStringMatchesPattern "^(bind|volume|tmpfs)$" (.string value) k
            = .ok [d] ∧ d.Severity = .Error ∧ d.AttributePath = []) ↔
        value ∉ ["bind", "volume", "tmpfs"])) ∧
    (∀ (value : String) (k : Path),
      (validateStringMatchesPattern "^(no|on-failure|always|unless-stopped)$" (.string value) k
          = .ok [] ↔
        value ∈ ["no", "on-failure", "always", "unless-stopped"]) ∧
      ((∃ d, validateStringMatchesPattern "^(no|on-failure|always|unless-stopped)$"
            (.string value) k = .ok [d] ∧ d.Severity = .Error ∧ d.AttributePath = []) ↔
        value ∉ ["no", "on-failure", "always", "unless-stopped"])) := by
  refine ⟨fun w ws value k h => validateStringMatchesPattern_words w ws h value k, ?_, ?_, ?_⟩
  · intro value k
    have e : alternationPattern ["pause", "continue-mate", "break"]
        = "^(pause|continue-mate|break)$" := rfl
    rw [← e]
    exact validateStringMatchesPattern_words _ _ (by decide) value k
  · intro value k
    have e : alternationPattern ["bind", "volume", "tmpfs"] = "^(bind|volume|tmpfs)$" := rfl
    rw [← e]
    exact validateStringMatchesPattern_words _ _ (by decide) value k
  · intro value k
    have e : alternationPattern ["no", "on-failure", "always", "unless-stopped"]
        = "^(no|on-failure|always|unless-stopped)$" := rfl
    rw [← e]
    exact validateStringMatchesPattern_words _ _ (by decide) value k

/-- The C7 statement at the mount type's pattern: `bind` passes, `nfs` gets one
Error diagnostic. -/
theorem validateStringMatchesPattern_alternation_witness :
    validateStringMatchesPattern "^(bind|volume|tmpfs)$" (.string "bind") [] = .ok [] ∧
    ∃ d, validateStringMatchesPattern "^(bind|volume|tmpfs)$" (.string "nfs") []
        = .ok [d] ∧ d.Severity = .Error ∧ d.AttributePath = [] :=
  ⟨((validateStringMatchesPattern_alternation.1 "bind" ["volume", "tmpfs"] "bind" []
      (by decide)).1).2 (by decide),
   ((validateStringMatchesPattern_alternation.1 "bind" ["volume", "tmpfs"] "nfs" []
      (by decide)).2).2 (by decide)⟩

/-! ### Durations -/

/-- Claim C9. For every string value the validator returned by `validateDurationGeq0`
yields no diagnostics if and only if the value parses as a duration and the parsed
duration is not negative; if it does not parse, or parses to a negative duration,
it yields exactly one diagnostic, of severity Error. The schema default `"0s"` is
accepted, `"-1s"` and `"abc"` are rejected. -/
theorem validateDurationGeq0_iff :
    (∀ (value : String) (k : Path),
      (validateDurationGeq0 (.string value) k = .ok [] ↔
        ∃ dur, ParseDuration value = .ok dur ∧ 0 ≤ dur) ∧
      ((∃ d, validateDurationGeq0 (.string value) k = .ok [d] ∧ d.Severity = .Error) ↔
        ((∃ e, ParseDuration value = .error e) ∨
         (∃ dur, ParseDuration value = .ok dur ∧ dur < 0)))) ∧
    validateDurationGeq0 (.string "0s") [] = .ok [] ∧
    (∃ d, validateDurationGeq0 (.string "-1s") [] = .ok [d] ∧ d.Severity = .Error) ∧
    (∃ d, validateDurationGeq0 (.string "abc") [] = .ok [d] ∧ d.Severity = .Error) := by
  have gen : ∀ (value : String) (k : Path),
      (validateDurationGeq0 (.string value) k = .ok [] ↔
        ∃ dur, ParseDuration value = .ok dur ∧ 0 ≤ dur) ∧
      ((∃ d, validateDurationGeq0 (.string value) k = .ok [d] ∧ d.Severity = .Error) ↔
        ((∃ e, ParseDuration value = .error e) ∨
         (∃ dur, ParseDuration value = .ok dur ∧ dur < 0))) := by
    intro value k
    simp only [validateDurationGeq0, GoValue.assertString, bind, Except.bind, pure, Except.pure]
    cases h : ParseDuration value with
    | error e => simp
    | ok dur =>
      by_cases hd : dur < 0
      · have : ¬ 0 ≤ dur := by omega
        simp [hd, this]
      · have : 0 ≤ dur := by omega
        simp [hd, this]
  have p0 : ParseDuration "0s" = .ok 0 := rfl
  have p1 : ParseDuration "-1s" = .ok (-1000000000) := rfl
  have p2 : ParseDuration "abc" = .error (.invalidDuration "abc") := rfl
  refine ⟨gen, ?_, ?_, ?_⟩
  · exact (gen "0s" []).1.2 ⟨0, p0, le_refl _⟩
  · exact (gen "-1s" []).2.2 (Or.inr ⟨_, p1, by decide⟩)
  · exact (gen "abc" []).2.2 (Or.inl ⟨_, p2⟩)

theorem leadingInt_length (s : List Char) :
    ∀ (x v : Nat) (r : List Char), leadingInt s x = some (v, r) → r.length ≤ s.length := by
  induction s with
  | nil => intro x v r h; simp [leadingInt] at h; simp [h.2.symm]
  | cons c cs ih =>
    intro x v r h
    rw [leadingInt] at h
    dsimp only at h
    split_ifs at h
    · simp at h; simp [← h.2]
    · have := ih _ _ _ h
      simp; omega

theorem leadingFraction_length (s : List Char) :
    ∀ (x scale : Nat) (o : Bool), (leadingFraction s x scale o).2.2.length ≤ s.length := by
  induction s with
  | nil => intro x scale o; simp [leadingFraction]
  | cons c cs ih =>
    intro x scale o
    rw [leadingFraction]
    dsimp only
    split_ifs
    · exact le_refl _
    · exact Nat.le_succ_of_le (ih _ _ _)
    · exact Nat.le_succ_of_le (ih _ _ _)
    · exact Nat.le_succ_of_le (ih _ _ _)
    · exact Nat.le_succ_of_le (ih _ _ _)

theorem optionalFraction_length (s : List Char) :
    (optionalFraction s).2.2.2.length ≤ s.length := by
  unfold optionalFraction
  split
  · exact Nat.le_succ_of_le (leadingFraction_length _ _ _ _)
  · exact le_refl _

/-- The loop of `ParseDuration` ends: every turn consumes input, so a turn for
every character of the input is enough. -/
theorem parseDurationLoop_fuel (orig : String) :
    ∀ (fuel : Nat) (s : List Char) (d : Nat), s.length ≤ fuel →
      parseDurationLoop orig fuel s d ≠ none := by
  intro fuel
  induction fuel with
  | zero =>
    intro s d h
    cases s with
    | nil => simp [parseDurationLoop]
    | cons c cs => simp at h
  | succ fuel ih =>
    intro s d h
    cases s with
    | nil => simp [parseDurationLoop]
    | cons c cs =>
      rw [parseDurationLoop]
      split_ifs with h0
      · simp
      · split
        · simp
        · rename_i v s1 hv
          have hs1 := leadingInt_length _ _ _ _ hv
          have hfr := optionalFraction_length s1
          dsimp only
          generalize optionalFraction s1 = fr at hfr ⊢
          have hsp := List.span_eq_take_drop
            (fun c => !(c == '.' || ('0' ≤ c && c ≤ '9'))) fr.2.2.2
          have hlen := congrArg List.length (List.takeWhile_append_dropWhile
            (fun c => !(c == '.' || ('0' ≤ c && c ≤ '9'))) fr.2.2.2)
          rw [List.length_append] at hlen
          rw [hsp]
          dsimp only
          generalize List.takeWhile (fun c => !(c == '.' || ('0' ≤ c && c ≤ '9'))) fr.2.2.2
            = u at hlen ⊢
          generalize List.dropWhile (fun c => !(c == '.' || ('0' ≤ c && c ≤ '9'))) fr.2.2.2
            = s3 at hlen ⊢
          by_cases hu : u.length = 0
          · simp only [hu, beq_self_eq_true, if_true]
            split_ifs <;> simp
          · have hs3 : s3.length ≤ fuel := by
              simp only [List.length_cons] at h hs1
              omega
            repeat' first
              | exact ih _ _ hs3
              | (simp; done)
              | split

/-! ### The env map -/

theorem stringsIndex_eq_none_iff (sep : List Char) (s : List Char) :
    stringsIndex s sep = none ↔ ¬ sep <:+: s := by
  induction s with
  | nil =>
    cases sep with
    | nil => simp [stringsIndex]
    | cons x xs => simp [stringsIndex]
  | cons c cs ih =>
    rw [stringsIndex]
    by_cases hp : sep.isPrefixOf (c :: cs) = true
    · rw [if_pos hp]
      have : sep <+: c :: cs := List.isPrefixOf_iff_prefix.1 hp
      simp [this.isInfix]
    · rw [if_neg hp]
      have hnp : ¬ sep <+: c :: cs := fun h => hp (List.isPrefixOf_iff_prefix.2 h)
      rw [Option.map_eq_none', ih, List.infix_cons_iff]
      simp [hnp]

theorem stringsIndex_some (sep : List Char) (s : List Char) :
    ∀ m, stringsIndex s sep = some m → m + sep.length ≤ s.length := by
  induction s with
  | nil =>
    intro m h
    cases sep with
    | nil => simp [stringsIndex] at h; simp [← h]
    | cons x xs => simp [stringsIndex] at h
  | cons c cs ih =>
    intro m h
    rw [stringsIndex] at h
    by_cases hp : sep.isPrefixOf (c :: cs) = true
    · rw [if_pos hp] at h
      have := (List.isPrefixOf_iff_prefix.1 hp).length_le
      simp at h; omega
    · rw [if_neg hp] at h
      obtain ⟨i, hi, rfl⟩ := Option.map_eq_some'.1 h
      have := ih i hi
      simp; omega

theorem genSplitLoop_ne_nil (sep : List Char) (k : Nat) (s : List Char) :
    genSplitLoop sep k s ≠ [] := by
  cases k with
  | zero => simp [genSplitLoop]
  | succ k =>
    rw [genSplitLoop]
    split <;> simp

/-- The first piece of a cut: all of the text when the separator does not occur. -/
theorem genSplitLoop_none (sep : List Char) (k : Nat) (s : List Char)
    (h : stringsIndex s sep = none) : genSplitLoop sep k s = [s] := by
  cases k with
  | zero => rfl
  | succ k => rw [genSplitLoop, h]

theorem stringsCountLoop_pos (sep : List Char) (hsep : sep ≠ []) (fuel : Nat) (s : List Char)
    (m : Nat) (h : stringsIndex s sep = some m) (hfuel : s.length ≤ fuel) :
    ∃ k, stringsCountLoop sep fuel s = k + 1 := by
  have hlen := stringsIndex_some sep s m h
  have hpos : 0 < sep.length := List.length_pos.2 hsep
  cases fuel with
  | zero => omega
  | succ fuel => exact ⟨_, by rw [stringsCountLoop, h]⟩

/-- What `strings.Split` returns at positions 0 and 1 for a text that contains the
(non-empty) separator: the text before the first occurrence, and the text between
the first occurrence and the second one or the end. -/
theorem stringsSplit_of_index (s separator : String) (hsep : separator ≠ "") (m : Nat)
    (h : stringsIndex s.data separator.data = some m) :
    ∃ tail, stringsSplit s separator
      = String.mk (beforeFirst s.data separator.data)
        :: String.mk (beforeFirst (afterFirst s.data separator.data) separator.data)
        :: tail := by
  have hne : separator.data ≠ [] := by
    intro h0; apply hsep; exact String.ext h0
  have hemp : separator.data.isEmpty = false := by
    cases hd : separator.data with
    | nil => exact absurd hd hne
    | cons x xs => rfl
  have hpos : 0 < separator.data.length := List.length_pos.2 hne
  have hlen := stringsIndex_some _ _ m h
  simp only [stringsSplit, hemp, Bool.false_eq_true, if_false, stringsCount, beforeFirst,
    afterFirst, h]
  rw [stringsCountLoop.eq_def]
  cases hl : s.data.length with
  | zero => omega
  | succ fuel =>
    simp only [h]
    rw [genSplitLoop]
    simp only [h, List.map_cons]
    cases h2 : stringsIndex (s.data.drop (m + separator.data.length)) separator.data with
    | none =>
      rw [genSplitLoop_none _ _ _ h2]
      exact ⟨[], rfl⟩
    | some m2 =>
      obtain ⟨k, hk⟩ := stringsCountLoop_pos _ hne fuel _ m2 h2
        (by simp only [List.length_drop]; omega)
      rw [hk, genSplitLoop]
      simp only [h2, List.map_cons]
      exact ⟨_, rfl⟩

theorem stringsSplit_without_separator (s separator : String) (hsep : separator ≠ "")
    (h : stringsIndex s.data separator.data = none) : stringsSplit s separator = [s] := by
  have hne : separator.data ≠ [] := by
    intro h0; apply hsep; exact String.ext h0
  have hemp : separator.data.isEmpty = false := by
    cases hd : separator.data with
    | nil => exact absurd hd hne
    | cons x xs => rfl
  simp only [stringsSplit, hemp, Bool.false_eq_true, if_false]
  rw [genSplitLoop_none _ _ _ h]
  rfl

/-- One turn of the loop of `stringSliceToStringMap` on an entry that contains the
separator. -/
theorem stringSliceToStringMapLoop_cons (s separator : String) (hsep : separator ≠ "")
    (h : separator.data <:+: s.data) (rest : List String) (ret : StringMap) :
    stringSliceToStringMapLoop (s :: rest) separator ret
      = stringSliceToStringMapLoop rest separator
          (ret.set (stringsTrimSpace (String.mk (beforeFirst s.data separator.data)))
            (stringsTrimSpace (String.mk
              (beforeFirst (afterFirst s.data separator.data) separator.data)))) := by
  cases hi : stringsIndex s.data separator.data with
  | none => exact absurd h ((stringsIndex_eq_none_iff _ _).1 hi)
  | some m =>
    obtain ⟨tail, ht⟩ := stringsSplit_of_index s separator hsep m hi
    rw [stringSliceToStringMapLoop]
    simp only [ht, sliceIndex, List.getElem?_cons_zero, List.getElem?_cons_succ, bind,
      Except.bind, pure, Except.pure]

/-- One turn of the loop of `stringSliceToStringMap` on an entry without the
separator: the index expression `slice[1]` is out of range. -/
theorem stringSliceToStringMapLoop_cons_panic (s separator : String) (hsep : separator ≠ "")
    (h : ¬ separator.data <:+: s.data) (rest : List String) (ret : StringMap) :
    stringSliceToStringMapLoop (s :: rest) separator ret = .error .indexOutOfRange := by
  have hi := (stringsIndex_eq_none_iff _ _).2 h
  rw [stringSliceToStringMapLoop]
  simp [stringsSplit_without_separator s separator hsep hi, sliceIndex, bind, Except.bind, pure,
    Except.pure, throw, throwThe, MonadExceptOf.throw]

theorem stringSliceToStringMapLoop_ok (separator : String) (hsep : separator ≠ "")
    (stringSlice : List String) :
    ∀ ret : StringMap, (∀ s ∈ stringSlice, separator.data <:+: s.data) →
      stringSliceToStringMapLoop stringSlice separator ret
        = .ok (stringSlice.foldl (fun m s =>
            m.set (stringsTrimSpace (String.mk (beforeFirst s.data separator.data)))
              (stringsTrimSpace (String.mk
                (beforeFirst (afterFirst s.data separator.data) separator.data)))) ret) := by
  induction stringSlice with
  | nil => intro ret _; rfl
  | cons s rest ih =>
    intro ret h
    rw [stringSliceToStringMapLoop_cons s separator hsep (h s (List.mem_cons_self _ _)),
      ih _ (fun x hx => h x (List.mem_cons_of_mem _ hx)), List.foldl_cons]

theorem stringSliceToStringMapLoop_panic (separator : String) (hsep : separator ≠ "")
    (stringSlice : List String) :
    ∀ ret : StringMap, (∃ s ∈ stringSlice, ¬ separator.data <:+: s.data) →
      stringSliceToStringMapLoop stringSlice separator ret = .error .indexOutOfRange := by
  induction stringSlice with
  | nil => intro ret h; obtain ⟨s, hs, -⟩ := h; simp at hs
  | cons s rest ih =>
    intro ret h
    by_cases hs : separator.data <:+: s.data
    · rw [stringSliceToStringMapLoop_cons s separator hsep hs]
      apply ih
      obtain ⟨x, hx, hnx⟩ := h
      rcases List.mem_cons.1 hx with rfl | hx
      · exact absurd hs hnx
      · exact ⟨x, hx, hnx⟩
    · exact stringSliceToStringMapLoop_cons_panic s separator hsep hs rest ret

/-- Claim C17. With a non-empty separator, `stringSliceToStringMap` returns normally
if and only if every entry contains the separator at least once; when some entry
does not, the index expression for the second piece is out of range and the
function panics instead of returning. The entry `"FOO"` with separator `"="` is
such a case. -/
theorem stringSliceToStringMap_returns_iff :
    (∀ (stringSlice : List String) (separator : String), separator ≠ "" →
      ((∃ m, stringSliceToStringMap stringSlice separator = .ok m) ↔
        ∀ s ∈ stringSlice, separator.data <:+: s.data) ∧
      ((∃ s ∈ stringSlice, ¬ separator.data <:+: s.data) →
        stringSliceToStringMap stringSlice separator = .error .indexOutOfRange)) ∧
    stringSliceToStringMap ["FOO"] "=" = .error .indexOutOfRange := by
  refine ⟨fun stringSlice separator hsep => ⟨⟨?_, ?_⟩, ?_⟩, rfl⟩
  · rintro ⟨m, hm⟩
    by_contra hall
    push_neg at hall
    rw [stringSliceToStringMap, stringSliceToStringMapLoop_panic separator hsep stringSlice []
      hall] at hm
    cases hm
  · intro hall
    exact ⟨_, stringSliceToStringMapLoop_ok separator hsep stringSlice [] hall⟩
  · intro hex
    exact stringSliceToStringMapLoop_panic separator hsep stringSlice [] hex

/-- The C17 statement at the env entries `PATH=/bin` and `FOO` with separator `=`:
the second entry has no separator, the function panics. -/
theorem stringSliceToStringMap_returns_iff_witness :
    stringSliceToStringMap ["PATH=/bin", "FOO"] "=" = .error .indexOutOfRange :=
  (stringSliceToStringMap_returns_iff.1 ["PATH=/bin", "FOO"] "=" (by decide)).2
    ⟨"FOO", by decide, by decide⟩

/-- Claim C18. With a non-empty separator, `stringSliceToStringMap` maps, for every
entry that contains the separator, the whitespace-trimmed text before the first
separator to the whitespace-trimmed text between the first separator and the
second one (or the end of the entry when there is no second one); the assignments
are made in sequence order. Text after a second separator is discarded: `"A=b=c"`
with separator `"="` yields `A -> "b"`. -/
theorem stringSliceToStringMap_first_two_pieces :
    (∀ (stringSlice : List String) (separator : String), separator ≠ "" →
      (∀ s ∈ stringSlice, separator.data <:+: s.data) →
      stringSliceToStringMap stringSlice separator
        = .ok (stringSlice.foldl (fun m s =>
            m.set (stringsTrimSpace (String.mk (beforeFirst s.data separator.data)))
              (stringsTrimSpace (String.mk
                (beforeFirst (afterFirst s.data separator.data) separator.data)))) [])) ∧
    (∀ (s separator : String), separator ≠ "" → separator.data <:+: s.data →
      stringSliceToStringMap [s] separator
        = .ok [(stringsTrimSpace (String.mk (beforeFirst s.data separator.data)),
                stringsTrimSpace (String.mk
                  (beforeFirst (afterFirst s.data separator.data) separator.data)))]) ∧
    stringSliceToStringMap ["A=b=c"] "=" = .ok [("A", "b")] := by
  refine ⟨fun stringSlice separator hsep hall =>
    stringSliceToStringMapLoop_ok separator hsep stringSlice [] hall, ?_, rfl⟩
  intro s separator hsep h
  rw [stringSliceToStringMap, stringSliceToStringMapLoop_ok separator hsep [s] []
    (by simpa using h)]
  rfl

/-- The C18 statement at the entry `" KEY = some value =x"`: the key and the value
are trimmed, the text after the second separator is dropped. -/
theorem stringSliceToStringMap_first_two_pieces_witness :
    stringSliceToStringMap [" KEY = some value =x"] "=" = .ok [("KEY", "some value")] :=
  (stringSliceToStringMap_first_two_pieces.2.1 " KEY = some value =x" "=" (by decide)
    (by decide)).trans rfl

/-! ### Volumes without a name -/

/-- Claim C19. A volume entry with empty `from_container`, non-empty
`container_path` and both `volume_name` and `host_path` empty raises no error and
contributes nothing to either output sequence: wherever it stands in a collection,
the result is that of the collection without it, and alone it yields two empty
sequences and no error, so fewer outputs than entries. -/
theorem volumeSetToPodmanVolumes_unnamed_skipped :
    (∀ (pre post : List VolumeEntry) (e : VolumeEntry),
      e.from_container = "" → e.container_path ≠ "" → e.volume_name = "" → e.host_path = "" →
      volumeSetToPodmanVolumes (some ((pre ++ e :: post).map VolumeEntry.toValue))
        = volumeSetToPodmanVolumes (some ((pre ++ post).map VolumeEntry.toValue))) ∧
    (∀ e : VolumeEntry,
      e.from_container = "" → e.container_path ≠ "" → e.volume_name = "" → e.host_path = "" →
      volumeSetToPodmanVolumes (some [e.toValue]) = .ok ([], [], none)) := by
  have skip : ∀ (e : VolumeEntry), e.from_container = "" → e.container_path ≠ "" →
      e.volume_name = "" → e.host_path = "" →
      ∀ (rest : List GoValue) (vols : List NamedVolume) (froms : List String),
        volumeSetToPodmanVolumesLoop (e.toValue :: rest) vols froms
          = volumeSetToPodmanVolumesLoop rest vols froms := by
    intro e hf hp hv hh rest vols froms
    rw [volumeSetToPodmanVolumesLoop_cons]
    simp [hf, hp, VolumeEntry.name, hv, hh]
  have inner : ∀ (pre : List VolumeEntry) (rest1 rest2 : List GoValue),
      (∀ vols froms, volumeSetToPodmanVolumesLoop rest1 vols froms
        = volumeSetToPodmanVolumesLoop rest2 vols froms) →
      ∀ vols froms,
        volumeSetToPodmanVolumesLoop (pre.map VolumeEntry.toValue ++ rest1) vols froms
          = volumeSetToPodmanVolumesLoop (pre.map VolumeEntry.toValue ++ rest2) vols froms := by
    intro pre rest1 rest2 h
    induction pre with
    | nil => intro vols froms; simpa using h vols froms
    | cons p pre ih =>
      intro vols froms
      simp only [List.map_cons, List.cons_append, volumeSetToPodmanVolumesLoop_cons, ih]
  refine ⟨?_, ?_⟩
  · intro pre post e hf hp hv hh
    simp only [volumeSetToPodmanVolumes, SchemaSet.List, bind, Except.bind, pure, Except.pure,
      List.map_append, List.map_cons]
    exact inner pre _ _ (fun vols froms => skip e hf hp hv hh _ vols froms) [] []
  · intro e hf hp hv hh
    simp only [volumeSetToPodmanVolumes, SchemaSet.List, bind, Except.bind, pure, Except.pure]
    rw [skip e hf hp hv hh]
    rfl

/-- The C19 statement at the entry `{container_path: "/data"}` between a
from-container entry and a named volume: the result is that of the two others. -/
theorem volumeSetToPodmanVolumes_unnamed_skipped_witness :
    volumeSetToPodmanVolumes (some (([⟨"db", "", "", "", false⟩,
        ⟨"", "/data", "", "", false⟩, ⟨"", "/srv", "", "v", true⟩] :
          List VolumeEntry).map VolumeEntry.toValue))
      = .ok ([{ Name := "v", Dest := "/srv", Options := ["ro"] }], ["db"], none) ∧
    volumeSetToPodmanVolumes (some [VolumeEntry.toValue ⟨"", "/data", "", "", false⟩])
      = .ok ([], [], none) :=
  ⟨(volumeSetToPodmanVolumes_unnamed_skipped.1 [⟨"db", "", "", "", false⟩]
      [⟨"", "/srv", "", "v", true⟩] ⟨"", "/data", "", "", false⟩ rfl (by decide) rfl rfl).trans
      rfl,
   volumeSetToPodmanVolumes_unnamed_skipped.2 ⟨"", "/data", "", "", false⟩ rfl (by decide)
      rfl rfl⟩

/-! ### The client facade -/

/-- Claim C16. For every specification `s`, `Client.CreateContainer` submits `s`
with `Terminal` set to true, whatever its previous value, as its first call. If
the creation fails it returns the empty identifier with that error and makes no
other call. If the creation succeeds with an identifier it calls `StartContainer`
on that identifier, that is: it starts the container and, when the start
succeeded, waits for the running state, before it returns the identifier together
with the error of the start or of the wait. -/
theorem createContainer_forces_terminal_then_starts (eng : Engine) (c : Client)
    (s : SpecGenerator) (calls : List EngineCall) :
    (∀ err, eng.CreateWithSpec calls c.context { s with Terminal := true } = .error err →
      c.CreateContainer eng s calls
        = (("", some err), calls ++ [.CreateWithSpec c.context { s with Terminal := true }])) ∧
    (∀ id, eng.CreateWithSpec calls c.context { s with Terminal := true } = .ok id →
      c.CreateContainer eng s calls
        = ((id, (c.StartContainer eng id
              (calls ++ [.CreateWithSpec c.context { s with Terminal := true }])).1),
           (c.StartContainer eng id
              (calls ++ [.CreateWithSpec c.context { s with Terminal := true }])).2)) ∧
    (∀ (id : String) (before : List EngineCall),
      (∀ err, eng.Start before c.context id = some err →
        c.StartContainer eng id before = (some err, before ++ [.Start c.context id])) ∧
      (eng.Start before c.context id = none →
        c.StartContainer eng id before
          = (eng.Wait (before ++ [.Start c.context id]) c.context id "running",
             before ++ [.Start c.context id, .Wait c.context id "running"]))) := by
  refine ⟨?_, ?_, ?_⟩
  · intro err h
    simp [Client.CreateContainer, h]
  · intro id h
    simp [Client.CreateContainer, h]
  · intro id before
    constructor
    · intro err h
      simp [Client.StartContainer, h]
    · intro h
      simp only [Client.StartContainer, h, Client.WaitContainer, ContainerStateRunning]
      cases eng.Wait (before ++ [.Start c.context id]) c.context id "running" <;> simp

/-- The C16 statement on an engine that accepts every call: the specification is
submitted with `Terminal` true, then the container is started and waited for. -/
theorem createContainer_forces_terminal_then_starts_witness :
    Client.CreateContainer engineOk { context := some "conn" } { Image := "nginx:latest" } []
      = (("c1", none),
         [.CreateWithSpec (some "conn") { Image := "nginx:latest", Terminal := true },
          .Start (some "conn") "c1", .Wait (some "conn") "c1" "running"]) :=
  ((createContainer_forces_terminal_then_starts engineOk { context := some "conn" }
      { Image := "nginx:latest" } []).2.1 "c1" rfl).trans rfl

/-! ### Create: connect, pull, specification -/

theorem formatS_plain (pre : List Char) (h : ∀ c ∈ pre, c ≠ '%') (rest : List Char)
    (args : List String) : formatS (pre ++ rest) args = pre ++ formatS rest args := by
  induction pre with
  | nil => rfl
  | cons c pre ih =>
    have hc : c ≠ '%' := h c (List.mem_cons_self _ _)
    have ih1 := ih (fun x hx => h x (List.mem_cons_of_mem _ hx))
    rw [List.cons_append, formatS.eq_def]
    split
    · rename_i heq; cases heq
    · rename_i heq; injection heq with h1 h2; exact absurd h1 hc
    · rename_i heq; injection heq with h1 h2; exact absurd h1 hc
    · rename_i c1 rest1 heq _ _
      injection heq with h1 h2
      rw [← h1, ← h2, ih1, List.cons_append]

theorem formatS_verb (a : String) (args : List String) (rest : List Char) :
    formatS ('%' :: 's' :: rest) (a :: args) = a.data ++ formatS rest args := by
  rw [formatS]

theorem fmtSprintf_pull (image msg : String) :
    fmtSprintf "Unable to create container with image %s: %s" [image, msg]
      = "Unable to create container with image " ++ image ++ ": " ++ msg := by
  have hf : ("Unable to create container with image %s: %s" : String).data
      = ("Unable to create container with image " : String).data
        ++ ('%' :: 's' :: ((": " : String).data ++ ('%' :: 's' :: []))) := rfl
  apply String.ext
  rw [fmtSprintf, hf, formatS_plain _ (by decide), formatS_verb, formatS_plain _ (by decide),
    formatS_verb]
  simp [formatS, String.data_append]

/-- The message of an error made by `fmt.Errorf` from a text and one `%s` at its
end. -/
theorem fmtSprintf_suffix (text : String) (h : ∀ c ∈ text.data, c ≠ '%') (msg : String) :
    formatS (text.data ++ ['%', 's']) [msg] = (text ++ msg).data := by
  rw [formatS_plain _ h, formatS_verb]
  simp [formatS, String.data_append]

theorem fmtErrorf_volumes (msg : String) :
    fmtErrorf "Unable to parse volumes: %s" [msg]
      = errorsNew ("Unable to parse volumes: " ++ msg) := by
  have hf : ("Unable to parse volumes: %s" : String).data
      = ("Unable to parse volumes: " : String).data ++ ['%', 's'] := rfl
  rw [fmtErrorf, fmtSprintf, hf, fmtSprintf_suffix _ (by decide)]

theorem fmtErrorf_start (msg : String) :
    fmtErrorf "Unable to start container: %s" [msg]
      = errorsNew ("Unable to start container: " ++ msg) := by
  have hf : ("Unable to start container: %s" : String).data
      = ("Unable to start container: " : String).data ++ ['%', 's'] := rfl
  rw [fmtErrorf, fmtSprintf, hf, fmtSprintf_suffix _ (by decide)]

theorem fmtErrorf_wait (msg : String) :
    fmtErrorf "Unable to wait container end of execution: %s" [msg]
      = errorsNew ("Unable to wait container end of execution: " ++ msg) := by
  have hf : ("Unable to wait container end of execution: %s" : String).data
      = ("Unable to wait container end of execution: " : String).data ++ ['%', 's'] := rfl
  rw [fmtErrorf, fmtSprintf, hf, fmtSprintf_suffix _ (by decide)]

theorem fmtErrorf_create (msg : String) :
    fmtErrorf "Unable to create container: %s" [msg]
      = errorsNew ("Unable to create container: " ++ msg) := by
  have hf : ("Unable to create container: %s" : String).data
      = ("Unable to create container: " : String).data ++ ['%', 's'] := rfl
  rw [fmtErrorf, fmtSprintf, hf, fmtSprintf_suffix _ (by decide)]

theorem fmtErrorf_command :
    fmtErrorf "values for command may not be empty" []
      = errorsNew "values for command may not be empty" := rfl

/-- A bind of the filling succeeds only if both of its parts do. -/
theorem build_bind_ok {α β : Type} (x : Build α) (f : α → Build β) (b : β)
    (h : x >>= f = .ok b) : ∃ a, x = .ok a ∧ f a = .ok b := by
  cases x with
  | error e => cases h
  | ok a => exact ⟨a, rfl, h⟩

/-- The run of create when the connection fails. -/
theorem create_connect_error (env : Env) (eng : Engine) (d : ResourceData) (meta : GoValue)
    (err : GoError) (hconn : eng.NewConnection [] (podmanSocket env) = .error err) :
    (resourcePodmanContainerCreate env eng d meta).result = .ok (some err) ∧
    (resourcePodmanContainerCreate env eng d meta).calls = [.NewConnection (podmanSocket env)] ∧
    (resourcePodmanContainerCreate env eng d meta).id = none := by
  simp only [podmanSocket] at hconn
  simp [resourcePodmanContainerCreate, Client.Connect, podmanSocket, hconn]

/-- The run of create once the connection is made, the image read and pulled:
what the filling of the specification decides. -/
theorem create_after_pull (env : Env) (eng : Engine) (d : ResourceData) (meta : GoValue)
    (image connText : String) (himg : d.Get "image" = .string image)
    (hconn : eng.NewConnection [] (podmanSocket env) = .ok connText)
    (hpull : eng.Pull [.NewConnection (podmanSocket env)] (some connText) image = none) :
    resourcePodmanContainerCreate env eng d meta =
      match createSpec d image with
      | .error (.panic p) =>
        ⟨.error p, [.NewConnection (podmanSocket env), .Pull (some connText) image], none⟩
      | .error (.fail err) =>
        ⟨.ok (some err), [.NewConnection (podmanSocket env), .Pull (some connText) image], none⟩
      | .ok config =>
        match Client.CreateContainer eng { context := some connText } config
            [.NewConnection (podmanSocket env), .Pull (some connText) image] with
        | ((_, some err), calls) =>
          ⟨.ok (some (fmtErrorf "Unable to create container: %s" [err.msg])), calls, none⟩
        | ((containerId, none), calls) =>
          createAfterContainer eng { context := some connText } d meta containerId calls := by
  simp only [podmanSocket] at hconn hpull
  simp only [resourcePodmanContainerCreate, Client.Connect, podmanSocket, hconn, himg,
    GoValue.assertString, pure, Except.pure, Client.PullImage, List.nil_append,
    List.cons_append, hpull]
  cases hspec : createSpec d image with
  | error e => cases e <;> rfl
  | ok config =>
    simp only []
    rcases hc : Client.CreateContainer eng { context := some connText } config
        [.NewConnection ("unix:" ++ env.XDG_RUNTIME_DIR ++ "/podman/podman.sock"),
         .Pull (some connText) image] with ⟨⟨containerId, err⟩, calls⟩
    cases err <;> rfl

/-- Claim C11. For every attribute set (whose `image` is a string, as the schema
requires) and every engine error `e`: if connect succeeds and the image pull fails
with `e`, then `resourcePodmanContainerCreate` returns an error whose message is
"Unable to create container with image", the image and `e`'s message unchanged at
the end; the only calls made are the connection and the pull, so no container
creation is submitted, and `SetId` is not called. -/
theorem create_pull_error (env : Env) (eng : Engine) (d : ResourceData) (meta : GoValue)
    (image connText : String) (e : GoError) (himg : d.Get "image" = .string image)
    (hconn : eng.NewConnection [] (podmanSocket env) = .ok connText)
    (hpull : eng.Pull [.NewConnection (podmanSocket env)] (some connText) image = some e) :
    (resourcePodmanContainerCreate env eng d meta).result
      = .ok (some (errorsNew
          ("Unable to create container with image " ++ image ++ ": " ++ e.msg))) ∧
    (resourcePodmanContainerCreate env eng d meta).calls
      = [.NewConnection (podmanSocket env), .Pull (some connText) image] ∧
    (resourcePodmanContainerCreate env eng d meta).id = none := by
  simp only [podmanSocket] at hconn hpull
  simp only [resourcePodmanContainerCreate, Client.Connect, podmanSocket, hconn, himg,
    GoValue.assertString, pure, Except.pure, Client.PullImage, List.nil_append,
    List.cons_append, hpull, fmtSprintf_pull, and_self]

/-- The C11 statement on schema-delivered attributes and an engine whose registry
does not know the image. -/
theorem create_pull_error_witness :
    (resourcePodmanContainerCreate ⟨"/run/user/1000"⟩
        { engineOk with Pull := fun _ _ _ => some (errorsNew "manifest unknown") }
        (schemaData "web" "nginx:latest" []) .nil).result
      = .ok (some (errorsNew
          "Unable to create container with image nginx:latest: manifest unknown")) ∧
    (resourcePodmanContainerCreate ⟨"/run/user/1000"⟩
        { engineOk with Pull := fun _ _ _ => some (errorsNew "manifest unknown") }
        (schemaData "web" "nginx:latest" []) .nil).calls
      = [.NewConnection "unix:/run/user/1000/podman/podman.sock",
         .Pull (some "conn") "nginx:latest"] ∧
    (resourcePodmanContainerCreate ⟨"/run/user/1000"⟩
        { engineOk with Pull := fun _ _ _ => some (errorsNew "manifest unknown") }
        (schemaData "web" "nginx:latest" []) .nil).id = none :=
  create_pull_error ⟨"/run/user/1000"⟩
    { engineOk with Pull := fun _ _ _ => some (errorsNew "manifest unknown") }
    (schemaData "web" "nginx:latest" []) .nil "nginx:latest" "conn"
    (errorsNew "manifest unknown") rfl rfl rfl

/-- A run of create whose specification cannot be filled makes no container: it
does not return nil, it does not submit a creation and it does not call `SetId`. -/
theorem create_without_spec (env : Env) (eng : Engine) (d : ResourceData) (meta : GoValue)
    (h : ∀ image config, createSpec d image ≠ .ok config) :
    (resourcePodmanContainerCreate env eng d meta).result ≠ .ok none ∧
    (∀ ctx s, EngineCall.CreateWithSpec ctx s ∉ (resourcePodmanContainerCreate env eng d meta).calls) ∧
    (resourcePodmanContainerCreate env eng d meta).id = none := by
  cases hconn : eng.NewConnection [] (podmanSocket env) with
  | error err =>
    obtain ⟨h1, h2, h3⟩ := create_connect_error env eng d meta err hconn
    rw [h1, h2, h3]
    simp
  | ok connText =>
    cases himg : d.Get "image" with
    | string image =>
      cases hpull : eng.Pull [.NewConnection (podmanSocket env)] (some connText) image with
      | some e =>
        obtain ⟨h1, h2, h3⟩ := create_pull_error env eng d meta image connText e himg hconn hpull
        rw [h1, h2, h3]
        simp
      | none =>
        rw [create_after_pull env eng d meta image connText himg hconn hpull]
        cases hspec : createSpec d image with
        | ok config => exact absurd hspec (h image config)
        | error e => cases e <;> simp
    | _ =>
      simp only [podmanSocket] at hconn
      simp [resourcePodmanContainerCreate, Client.Connect, hconn, himg, GoValue.assertString,
        throw, throwThe, MonadExceptOf.throw]

theorem createSpecBasics_int (d : ResourceData) (image : String) (privileged : Bool)
    (publishAllPorts : Bool) (restart : String) (n : Int)
    (h1 : d.Get "privileged" = .bool privileged)
    (h2 : d.Get "publish_all_ports" = .bool publishAllPorts)
    (h3 : d.Get "restart" = .string restart) (h4 : d.Get "max_retry_count" = .int n) :
    createSpecBasics d image = .error (.panic (.interfaceConversion "*uint")) := by
  simp [createSpecBasics, h1, h2, h3, h4, liftGo, GoValue.assertBool, GoValue.assertString,
    GoValue.assertUintPtr, bind, Except.bind, pure, Except.pure, throw, throwThe,
    MonadExceptOf.throw]

theorem createSpec_of_basics_error (d : ResourceData) (image : String) (e : Abort)
    (h : createSpecBasics d image = .error e) : createSpec d image = .error e := by
  simp [createSpec, createSpecBeforeDNS, createSpecBeforeVolumes, createSpecBeforeCommand, h,
    bind, Except.bind]

/-- The filling of the specification panics at a type assertion of its first
reads whenever `max_retry_count` does not hold a `*uint`: at the assertion
`d.Get("max_retry_count").(*uint)`, or at one of the three reads before it. -/
theorem createSpecBasics_panics (d : ResourceData) (image : String)
    (h : ∀ p, d.Get "max_retry_count" ≠ .uintPtr p) :
    ∃ p, createSpecBasics d image = .error (.panic p) := by
  cases h1 : d.Get "privileged" with
  | bool privileged =>
    cases h2 : d.Get "publish_all_ports" with
    | bool publishAllPorts =>
      cases h3 : d.Get "restart" with
      | string restart =>
        cases h4 : d.Get "max_retry_count" with
        | uintPtr p => exact absurd h4 (h p)
        | _ =>
          simp [createSpecBasics, h1, h2, h3, h4, liftGo, GoValue.assertBool,
            GoValue.assertString, GoValue.assertUintPtr, bind, Except.bind, pure, Except.pure,
            throw, throwThe, MonadExceptOf.throw]
      | _ =>
        simp [createSpecBasics, h1, h2, h3, liftGo, GoValue.assertBool,
          GoValue.assertString, bind, Except.bind, pure, Except.pure,
          throw, throwThe, MonadExceptOf.throw]
    | _ =>
      simp [createSpecBasics, h1, h2, liftGo, GoValue.assertBool, bind, Except.bind, pure,
        Except.pure, throw, throwThe, MonadExceptOf.throw]
  | _ =>
    simp [createSpecBasics, h1, liftGo, GoValue.assertBool, bind, Except.bind, pure,
      Except.pure, throw, throwThe, MonadExceptOf.throw]

/-- Claim C14, what the code does. On attributes as the schema delivers them
(`max_retry_count` is a `TypeInt` attribute and holds an `int`), when connect and
pull succeed, `resourcePodmanContainerCreate` panics at the type assertion
`d.Get("max_retry_count").(*uint)`: it returns no result, submits no container
creation and does not call `SetId`. This is so for name `web` and image
`nginx:latest` on an engine where every call would succeed. -/
theorem create_schema_data_panics :
    (∀ (env : Env) (eng : Engine) (d : ResourceData) (meta : GoValue) (image connText : String)
        (privileged publishAllPorts : Bool) (restart : String) (n : Int),
      d.Get "image" = .string image →
      d.Get "privileged" = .bool privileged →
      d.Get "publish_all_ports" = .bool publishAllPorts →
      d.Get "restart" = .string restart →
      d.Get "max_retry_count" = .int n →
      eng.NewConnection [] (podmanSocket env) = .ok connText →
      eng.Pull [.NewConnection (podmanSocket env)] (some connText) image = none →
      (resourcePodmanContainerCreate env eng d meta).result
        = .error (.interfaceConversion "*uint") ∧
      (resourcePodmanContainerCreate env eng d meta).calls
        = [.NewConnection (podmanSocket env), .Pull (some connText) image] ∧
      (resourcePodmanContainerCreate env eng d meta).id = none) ∧
    (resourcePodmanContainerCreate ⟨"/run/user/1000"⟩ engineOk
        (schemaData "web" "nginx:latest" []) .nil).result
      = .error (.interfaceConversion "*uint") ∧
    (resourcePodmanContainerCreate ⟨"/run/user/1000"⟩ engineOk
        (schemaData "web" "nginx:latest" []) .nil).calls
      = [.NewConnection "unix:/run/user/1000/podman/podman.sock",
         .Pull (some "conn") "nginx:latest"] ∧
    (resourcePodmanContainerCreate ⟨"/run/user/1000"⟩ engineOk
        (schemaData "web" "nginx:latest" []) .nil).id = none := by
  have gen : ∀ (env : Env) (eng : Engine) (d : ResourceData) (meta : GoValue)
      (image connText : String) (privileged publishAllPorts : Bool) (restart : String) (n : Int),
      d.Get "image" = .string image →
      d.Get "privileged" = .bool privileged →
      d.Get "publish_all_ports" = .bool publishAllPorts →
      d.Get "restart" = .string restart →
      d.Get "max_retry_count" = .int n →
      eng.NewConnection [] (podmanSocket env) = .ok connText →
      eng.Pull [.NewConnection (podmanSocket env)] (some connText) image = none →
      (resourcePodmanContainerCreate env eng d meta).result
        = .error (.interfaceConversion "*uint") ∧
      (resourcePodmanContainerCreate env eng d meta).calls
        = [.NewConnection (podmanSocket env), .Pull (some connText) image] ∧
      (resourcePodmanContainerCreate env eng d meta).id = none := by
    intro env eng d meta image connText privileged publishAllPorts restart n himg h1 h2 h3 h4
      hconn hpull
    rw [create_after_pull env eng d meta image connText himg hconn hpull,
      createSpec_of_basics_error d image _ (createSpecBasics_int d image _ _ _ n h1 h2 h3 h4)]
    exact ⟨rfl, rfl, rfl⟩
  exact ⟨gen, gen ⟨"/run/user/1000"⟩ engineOk (schemaData "web" "nginx:latest" []) .nil
    "nginx:latest" "conn" false false "no" 0 rfl rfl rfl rfl rfl rfl rfl⟩

/-! ### Create: after the container is made -/

theorem createContainer_ok (eng : Engine) (c : Client) (config : SpecGenerator)
    (before calls : List EngineCall) (containerId : String)
    (h : c.CreateContainer eng config before = ((containerId, none), calls)) :
    eng.CreateWithSpec before c.context { config with Terminal := true } = .ok containerId := by
  simp only [Client.CreateContainer] at h
  cases hc : eng.CreateWithSpec before c.context { config with Terminal := true } with
  | error err => rw [hc] at h; simp at h
  | ok id =>
    rw [hc] at h
    simp only [Prod.mk.injEq] at h
    rw [h.1.1]

theorem createAfterContainer_id (eng : Engine) (c : Client) (d : ResourceData) (meta : GoValue)
    (containerId : String) (calls : List EngineCall) :
    (createAfterContainer eng c d meta containerId calls).id = some containerId := by
  unfold createAfterContainer
  repeat' split
  all_goals rfl

theorem createAfterContainer_error (eng : Engine) (c : Client) (d : ResourceData)
    (meta : GoValue) (containerId : String) (calls : List EngineCall) (err : GoError)
    (h : (createAfterContainer eng c d meta containerId calls).result = .ok (some err)) :
    ∃ e : GoError, err = errorsNew ("Unable to start container: " ++ e.msg) ∨
      err = errorsNew ("Unable to wait container end of execution: " ++ e.msg) := by
  unfold createAfterContainer at h
  simp only [fmtErrorf_start, fmtErrorf_wait, resourcePodmanContainerRead] at h
  repeat' split at h
  all_goals first
    | (simp only [Except.ok.injEq, Option.some.injEq] at h
       first
         | exact ⟨_, Or.inl h.symm⟩
         | exact ⟨_, Or.inr h.symm⟩)
    | simp at h

/-- Claim C12. On every attribute set whose `max_retry_count` does not hold a
`*uint` (`d.Get` returns a bool, an int, a float64, a string, a list, a map, a
`*schema.Set` or nil, never a `*uint`), every run of
`resourcePodmanContainerCreate` that returns an error has persisted no Container
Identifier: `SetId` has not been called and no container creation has been
submitted. The error returned is that of connect, or that of the image pull
wrapped in "Unable to create container with image"; the start and wait steps that
follow creation are not reached by such a run, so no failure of theirs is returned
with an identifier persisted. -/
theorem create_error_persists_nothing (env : Env) (eng : Engine) (d : ResourceData)
    (meta : GoValue) (hretry : ∀ p, d.Get "max_retry_count" ≠ .uintPtr p) (err : GoError)
    (h : (resourcePodmanContainerCreate env eng d meta).result = .ok (some err)) :
    (resourcePodmanContainerCreate env eng d meta).id = none ∧
    (∀ ctx s,
      EngineCall.CreateWithSpec ctx s ∉ (resourcePodmanContainerCreate env eng d meta).calls) ∧
    (eng.NewConnection [] (podmanSocket env) = .error err ∨
     ∃ (image connText : String) (e : GoError),
       d.Get "image" = .string image ∧
       eng.NewConnection [] (podmanSocket env) = .ok connText ∧
       eng.Pull [.NewConnection (podmanSocket env)] (some connText) image = some e ∧
       err = errorsNew ("Unable to create container with image " ++ image ++ ": " ++ e.msg)) := by
  have hspec : ∀ image, ∃ p, createSpec d image = .error (.panic p) := fun image =>
    (createSpecBasics_panics d image hretry).imp
      (fun p hp => createSpec_of_basics_error d image _ hp)
  have hnone := create_without_spec env eng d meta (fun image config hok => by
    obtain ⟨p, hp⟩ := hspec image
    rw [hp] at hok
    cases hok)
  refine ⟨hnone.2.2, hnone.2.1, ?_⟩
  cases hconn : eng.NewConnection [] (podmanSocket env) with
  | error cerr =>
    rw [(create_connect_error env eng d meta cerr hconn).1] at h
    simp only [Except.ok.injEq, Option.some.injEq] at h
    exact Or.inl (by rw [h])
  | ok connText =>
    cases himg : d.Get "image" with
    | string image =>
      cases hpull : eng.Pull [.NewConnection (podmanSocket env)] (some connText) image with
      | some e =>
        rw [(create_pull_error env eng d meta image connText e himg hconn hpull).1] at h
        simp only [Except.ok.injEq, Option.some.injEq] at h
        exact Or.inr ⟨image, connText, e, rfl, rfl, hpull, h.symm⟩
      | none =>
        obtain ⟨p, hp⟩ := hspec image
        rw [create_after_pull env eng d meta image connText himg hconn hpull, hp] at h
        cases h
    | _ =>
      simp only [podmanSocket] at hconn
      simp [resourcePodmanContainerCreate, Client.Connect, hconn, himg, GoValue.assertString,
        throw, throwThe, MonadExceptOf.throw] at h

/-- The C12 statement on schema-delivered attributes, where `max_retry_count` holds
the int 0, and an engine whose registry does not know the image: the run returns
the pull error and nothing is persisted. -/
theorem create_error_persists_nothing_witness :
    (resourcePodmanContainerCreate ⟨"/run/user/1000"⟩
        { engineOk with Pull := fun _ _ _ => some (errorsNew "manifest unknown") }
        (schemaData "web" "nginx:latest" []) .nil).result
      = .ok (some (errorsNew
          "Unable to create container with image nginx:latest: manifest unknown")) ∧
    (resourcePodmanContainerCreate ⟨"/run/user/1000"⟩
        { engineOk with Pull := fun _ _ _ => some (errorsNew "manifest unknown") }
        (schemaData "web" "nginx:latest" []) .nil).id = none :=
  ⟨rfl,
   (create_error_persists_nothing ⟨"/run/user/1000"⟩
      { engineOk with Pull := fun _ _ _ => some (errorsNew "manifest unknown") }
      (schemaData "web" "nginx:latest" []) .nil
      (fun p hp => by
        have hget : (schemaData "web" "nginx:latest" []).Get "max_retry_count" = .int 0 := rfl
        rw [hget] at hp
        cases hp)
      (errorsNew "Unable to create container with image nginx:latest: manifest unknown")
      rfl).1⟩

/-- Where the text of create places `d.SetId`: a run that returns an error has
called `SetId` only if the error is that of the start step or of the wait step
written after it, and then with the identifier the engine returned for the
creation. The errors of connect, of the pull, of the checks made while the
specification is filled and of `CreateContainer` come before `d.SetId`. -/
theorem create_error_id_none_or_after_setId (env : Env) (eng : Engine) (d : ResourceData)
    (meta : GoValue) (err : GoError)
    (h : (resourcePodmanContainerCreate env eng d meta).result = .ok (some err)) :
    (resourcePodmanContainerCreate env eng d meta).id = none ∨
    ∃ (containerId : String) (e : GoError) (before : List EngineCall) (ctx : Option String)
        (s : SpecGenerator),
      (resourcePodmanContainerCreate env eng d meta).id = some containerId ∧
      eng.CreateWithSpec before ctx s = .ok containerId ∧
      (err = errorsNew ("Unable to start container: " ++ e.msg) ∨
       err = errorsNew ("Unable to wait container end of execution: " ++ e.msg)) := by
  cases hconn : eng.NewConnection [] (podmanSocket env) with
  | error cerr => exact Or.inl (create_connect_error env eng d meta cerr hconn).2.2
  | ok connText =>
    cases himg : d.Get "image" with
    | string image =>
      cases hpull : eng.Pull [.NewConnection (podmanSocket env)] (some connText) image with
      | some e =>
        exact Or.inl (create_pull_error env eng d meta image connText e himg hconn hpull).2.2
      | none =>
        rw [create_after_pull env eng d meta image connText himg hconn hpull] at h ⊢
        cases hspec : createSpec d image with
        | error e => cases e <;> exact Or.inl rfl
        | ok config =>
          rw [hspec] at h
          simp only [] at h ⊢
          rcases hc : Client.CreateContainer eng { context := some connText } config
              [.NewConnection (podmanSocket env), .Pull (some connText) image]
            with ⟨⟨containerId, cerr⟩, calls⟩
          rw [hc] at h
          cases cerr with
          | some e => exact Or.inl rfl
          | none =>
            simp only [] at h ⊢
            obtain ⟨e, he⟩ := createAfterContainer_error eng _ d meta containerId calls err h
            exact Or.inr ⟨containerId, e, _, _, _, createAfterContainer_id _ _ _ _ _ _,
              createContainer_ok eng _ config _ calls containerId hc, he⟩
    | _ =>
      simp only [podmanSocket] at hconn
      simp [resourcePodmanContainerCreate, Client.Connect, hconn, himg, GoValue.assertString,
        throw, throwThe, MonadExceptOf.throw] at h

/-! ### Create: the checks made while the specification is filled -/

theorem volumeSetToPodmanVolumesLoop_error_msg (entries : List VolumeEntry) :
    ∀ (vols : List NamedVolume) (froms : List String) (vols1 : List NamedVolume)
      (froms1 : List String) (verr : GoError),
      volumeSetToPodmanVolumesLoop (entries.map VolumeEntry.toValue) vols froms
        = .ok (vols1, froms1, some verr) →
      verr = errorsNew "Volume entry without container path or source container" ∨
      verr = errorsNew "Both a container and a path specified in a volume entry" := by
  induction entries with
  | nil =>
    intro vols froms vols1 froms1 verr h
    simp [volumeSetToPodmanVolumesLoop, pure, Except.pure] at h
  | cons e rest ih =>
    intro vols froms vols1 froms1 verr h
    rw [List.map_cons, volumeSetToPodmanVolumesLoop_cons] at h
    by_cases h1 : e.from_container = "" ∧ e.container_path = ""
    · rw [if_pos h1] at h
      simp only [Except.ok.injEq, Prod.mk.injEq, Option.some.injEq] at h
      exact Or.inl h.2.2.symm
    · rw [if_neg h1] at h
      by_cases h2 : e.from_container ≠ "" ∧ e.container_path ≠ ""
      · rw [if_pos h2] at h
        simp only [Except.ok.injEq, Prod.mk.injEq, Option.some.injEq] at h
        exact Or.inr h.2.2.symm
      · rw [if_neg h2] at h
        by_cases h3 : e.from_container ≠ ""
        · rw [if_pos h3] at h; exact ih _ _ _ _ _ h
        · rw [if_neg h3] at h
          by_cases h4 : e.name ≠ ""
          · rw [if_pos h4] at h; exact ih _ _ _ _ _ h
          · rw [if_neg h4] at h; exact ih _ _ _ _ _ h

/-- The filling stops at malformed volumes with the error "Unable to parse
volumes: ...", whatever has been filled before. -/
theorem createSpecVolumes_malformed (d : ResourceData) (entries : List VolumeEntry)
    (hvol : d.GetOk "volumes" = (.set (some (entries.map VolumeEntry.toValue)), true))
    (hbad : ∃ e ∈ entries, e.malformed) :
    ∃ verr : GoError,
      (verr = errorsNew "Volume entry without container path or source container" ∨
       verr = errorsNew "Both a container and a path specified in a volume entry") ∧
      ∀ config, createSpecVolumes d config
        = .error (.fail (errorsNew ("Unable to parse volumes: " ++ verr.msg))) := by
  obtain ⟨vols, froms, err, hr, hiff⟩ := volumeSetToPodmanVolumesLoop_error_iff entries [] []
  have hne : err ≠ none := hiff.2 hbad
  obtain ⟨verr, rfl⟩ := Option.ne_none_iff_exists'.1 hne
  refine ⟨verr, volumeSetToPodmanVolumesLoop_error_msg entries _ _ _ _ _ hr, ?_⟩
  intro config
  have hv : volumeSetToPodmanVolumes (some (entries.map VolumeEntry.toValue))
      = .ok (vols, froms, some verr) := by
    simpa [volumeSetToPodmanVolumes, SchemaSet.List, bind, Except.bind, pure, Except.pure]
      using hr
  simp [createSpecVolumes, hvol, liftGo, GoValue.assertSet, hv, bind, Except.bind, pure,
    Except.pure, throw, throwThe, MonadExceptOf.throw, fmtErrorf_volumes]

theorem createSpec_of_volumes_error (d : ResourceData) (e : Abort)
    (h : ∀ config, createSpecVolumes d config = .error e) :
    ∀ image config, createSpec d image ≠ .ok config := by
  intro image config hok
  obtain ⟨c1, h1, -⟩ := build_bind_ok _ _ _ hok
  obtain ⟨c2, h2, -⟩ := build_bind_ok _ _ _ h1
  simp only [createSpecBeforeDNS, bind, Except.bind] at h2
  cases hb : createSpecBeforeVolumes d image with
  | error e1 => rw [hb] at h2; cases h2
  | ok c0 =>
    rw [hb] at h2
    simp only [h c0] at h2
    cases h2

/-- When the filling reaches the volumes, the specification is what the volumes
step makes of it. -/
theorem createSpec_volumes_fail (d : ResourceData) (image : String) (config : SpecGenerator)
    (err : GoError) (hspec : createSpecBeforeVolumes d image = .ok config)
    (h : createSpecVolumes d config = .error (.fail err)) :
    createSpec d image = .error (.fail err) := by
  simp [createSpec, createSpecBeforeDNS, hspec, h, bind, Except.bind]

/-- Claim C13 as stated fails: the volumes are checked after connect and pull.
With a volume entry that names both a container and a path, attributes that pass
the reads before the volumes get the validation error once the connection and the
pull have been made; and on an unreachable engine schema-delivered attributes with
that entry get the connection error, the volumes are not looked at. -/
theorem create_volumes_checked_after_pull :
    ((resourcePodmanContainerCreate ⟨"/run/user/1000"⟩ engineOk
        (looseData "web" "nginx:latest" false false
          [("volumes", .set (some [VolumeEntry.toValue ⟨"a", "/data", "", "", false⟩]))])
        .nil).result
      = .ok (some (errorsNew
          "Unable to parse volumes: Both a container and a path specified in a volume entry")) ∧
     (resourcePodmanContainerCreate ⟨"/run/user/1000"⟩ engineOk
        (looseData "web" "nginx:latest" false false
          [("volumes", .set (some [VolumeEntry.toValue ⟨"a", "/data", "", "", false⟩]))])
        .nil).calls
      = [.NewConnection "unix:/run/user/1000/podman/podman.sock",
         .Pull (some "conn") "nginx:latest"]) ∧
    ((resourcePodmanContainerCreate ⟨"/run/user/1000"⟩ engineUnreachable
        (schemaData "web" "nginx:latest"
          [("volumes", .set (some [VolumeEntry.toValue ⟨"a", "/data", "", "", false⟩]))])
        .nil).result
      = .ok (some (errorsNew "connection refused")) ∧
     (resourcePodmanContainerCreate ⟨"/run/user/1000"⟩ engineUnreachable
        (schemaData "web" "nginx:latest"
          [("volumes", .set (some [VolumeEntry.toValue ⟨"a", "/data", "", "", false⟩]))])
        .nil).calls
      = [.NewConnection "unix:/run/user/1000/podman/podman.sock"]) := by
  refine ⟨⟨?_, ?_⟩, ⟨?_, ?_⟩⟩ <;> rfl

/-- Claim C13, amended. For every attribute set whose volumes are malformed (some
entry with both or neither of `from_container` and `container_path`),
`resourcePodmanContainerCreate` never returns nil, submits no container creation
and persists no identifier. The volumes are checked while the specification is
filled, after connect and pull: when these two succeed and the filling reaches the
volumes, the error "Unable to parse volumes: ..." is returned, and the calls made
before are exactly the connection and the pull. -/
theorem create_volumes_malformed (env : Env) (eng : Engine) (d : ResourceData)
    (meta : GoValue) (entries : List VolumeEntry)
    (hvol : d.GetOk "volumes" = (.set (some (entries.map VolumeEntry.toValue)), true))
    (hbad : ∃ e ∈ entries,
      (e.from_container = "" ∧ e.container_path = "") ∨
      (e.from_container ≠ "" ∧ e.container_path ≠ "")) :
    ((resourcePodmanContainerCreate env eng d meta).result ≠ .ok none ∧
     (∀ ctx s,
        EngineCall.CreateWithSpec ctx s ∉ (resourcePodmanContainerCreate env eng d meta).calls) ∧
     (resourcePodmanContainerCreate env eng d meta).id = none) ∧
    (∀ (image connText : String) (config : SpecGenerator),
      d.Get "image" = .string image →
      eng.NewConnection [] (podmanSocket env) = .ok connText →
      eng.Pull [.NewConnection (podmanSocket env)] (some connText) image = none →
      createSpecBeforeVolumes d image = .ok config →
      (∃ verr : GoError,
        (verr = errorsNew "Volume entry without container path or source container" ∨
         verr = errorsNew "Both a container and a path specified in a volume entry") ∧
        (resourcePodmanContainerCreate env eng d meta).result
          = .ok (some (errorsNew ("Unable to parse volumes: " ++ verr.msg)))) ∧
      (resourcePodmanContainerCreate env eng d meta).calls
        = [.NewConnection (podmanSocket env), .Pull (some connText) image]) := by
  obtain ⟨verr, hmsg, hfail⟩ := createSpecVolumes_malformed d entries hvol hbad
  refine ⟨create_without_spec env eng d meta (createSpec_of_volumes_error d _ hfail), ?_⟩
  intro image connText config himg hconn hpull hspec
  rw [create_after_pull env eng d meta image connText himg hconn hpull,
    createSpec_volumes_fail d image config _ hspec (hfail config)]
  exact ⟨⟨verr, hmsg, rfl⟩, rfl⟩

/-- The C13 amendment at attributes that pass the reads before the volumes, with
an entry that names neither a container nor a path. -/
theorem create_volumes_malformed_witness :
    (∃ verr : GoError,
      (verr = errorsNew "Volume entry without container path or source container" ∨
       verr = errorsNew "Both a container and a path specified in a volume entry") ∧
      (resourcePodmanContainerCreate ⟨"/run/user/1000"⟩ engineOk
        (looseData "web" "nginx:latest" false false
          [("volumes", .set (some [VolumeEntry.toValue ⟨"", "", "", "", false⟩]))])
        .nil).result
        = .ok (some (errorsNew ("Unable to parse volumes: " ++ verr.msg)))) ∧
    (resourcePodmanContainerCreate ⟨"/run/user/1000"⟩ engineOk
        (looseData "web" "nginx:latest" false false
          [("volumes", .set (some [VolumeEntry.toValue ⟨"", "", "", "", false⟩]))])
        .nil).calls
      = [.NewConnection (podmanSocket ⟨"/run/user/1000"⟩), .Pull (some "conn") "nginx:latest"] :=
  (create_volumes_malformed ⟨"/run/user/1000"⟩ engineOk
    (looseData "web" "nginx:latest" false false
      [("volumes", .set (some [VolumeEntry.toValue ⟨"", "", "", "", false⟩]))])
    .nil [⟨"", "", "", "", false⟩] rfl (by decide)).2 "nginx:latest" "conn"
    { Image := "nginx:latest", RestartPolicy := "no",
      LogConfiguration := some { Driver := "" } } rfl rfl rfl rfl

theorem createSpecCommand_empty (d : ResourceData) (xs : List (Option String))
    (hcmd : d.GetOk "command" = (.slice (xs.map optionalString), true))
    (hempty : none ∈ xs ∨ some "" ∈ xs) (config : SpecGenerator) :
    createSpecCommand d config
      = .error (.fail (errorsNew "values for command may not be empty")) := by
  have hany : (xs.map (fun o => o.getD "")).any (fun v => v == "") = true := by
    rw [List.any_eq_true]
    rcases hempty with h | h
    · exact ⟨"", List.mem_map.2 ⟨none, h, rfl⟩, by simp⟩
    · exact ⟨"", List.mem_map.2 ⟨some "", h, rfl⟩, by simp⟩
  have hs : stringListToStringSlice (xs.map optionalString)
      = .ok (xs.map (fun o => o.getD "")) := by
    simp [stringListToStringSlice, stringListToStringSliceLoop_eq]
  simp only [createSpecCommand, hcmd, liftGo, GoValue.assertSlice, hs, bind, Except.bind, pure,
    Except.pure, if_true, hany, fmtErrorf_command, throw, throwThe, MonadExceptOf.throw]

theorem createSpec_of_command_error (d : ResourceData) (e : Abort)
    (h : ∀ config, createSpecCommand d config = .error e) :
    ∀ image config, createSpec d image ≠ .ok config := by
  intro image config hok
  obtain ⟨c1, h1, -⟩ := build_bind_ok _ _ _ hok
  obtain ⟨c2, h2, -⟩ := build_bind_ok _ _ _ h1
  simp only [createSpecBeforeDNS, bind, Except.bind] at h2
  cases hb : createSpecBeforeVolumes d image with
  | error e1 => rw [hb] at h2; cases h2
  | ok c0 =>
    obtain ⟨c3, h3, -⟩ := build_bind_ok _ _ _ hb
    obtain ⟨c4, h4, -⟩ := build_bind_ok _ _ _ h3
    obtain ⟨c5, -, h5⟩ := build_bind_ok _ _ _ h4
    rw [h c5] at h5
    cases h5

theorem createSpec_command_fail (d : ResourceData) (image : String) (config : SpecGenerator)
    (err : GoError) (hspec : createSpecBeforeCommand d image = .ok config)
    (h : createSpecCommand d config = .error (.fail err)) :
    createSpec d image = .error (.fail err) := by
  simp [createSpec, createSpecBeforeDNS, createSpecBeforeVolumes, hspec, h, bind, Except.bind]

theorem createSpecEntrypoint_ok (d : ResourceData) (ys : List (Option String))
    (hent : d.GetOk "entrypoint" = (.slice (ys.map optionalString), true))
    (config : SpecGenerator) :
    createSpecEntrypoint d config
      = .ok { config with Entrypoint := ys.map (fun o => o.getD "") } := by
  have hs : stringListToStringSlice (ys.map optionalString)
      = .ok (ys.map (fun o => o.getD "")) := by
    simp [stringListToStringSlice, stringListToStringSliceLoop_eq]
  simp only [createSpecEntrypoint, hent, liftGo, GoValue.assertSlice, hs, bind, Except.bind,
    pure, Except.pure, if_true]

/-- Claim C15 as stated fails: on an unreachable engine, schema-delivered
attributes whose command list holds an empty element get the connection error,
not the error "values for command may not be empty". -/
theorem create_command_error_not_first :
    (resourcePodmanContainerCreate ⟨"/run/user/1000"⟩ engineUnreachable
        (schemaData "web" "nginx:latest" [("command", .slice [.string "sh", .string ""])])
        .nil).result
      = .ok (some (errorsNew "connection refused")) ∧
    (resourcePodmanContainerCreate ⟨"/run/user/1000"⟩ engineUnreachable
        (schemaData "web" "nginx:latest" [("command", .slice [.string "sh", .string ""])])
        .nil).result
      ≠ .ok (some (errorsNew "values for command may not be empty")) := by
  have h : (resourcePodmanContainerCreate ⟨"/run/user/1000"⟩ engineUnreachable
        (schemaData "web" "nginx:latest" [("command", .slice [.string "sh", .string ""])])
        .nil).result = .ok (some (errorsNew "connection refused")) := rfl
  refine ⟨h, ?_⟩
  rw [h]
  intro heq
  have hmsg : ("connection refused" : String) = "values for command may not be empty" := by
    injection heq with h1
    injection h1 with h2
    exact congrArg GoError.msg h2
  exact absurd hmsg (by decide)

/-- Claim C15, amended. For every attribute set whose command list contains an empty
or absent element, `resourcePodmanContainerCreate` never returns nil, submits no
container creation and persists no identifier; when connect and pull succeed and
the filling of the specification reaches the command, it fails with the error
"values for command may not be empty", the connection and the pull being the only
calls made. The step that reads `entrypoint` keeps empty elements and raises no
error for them. -/
theorem create_command_empty (env : Env) (eng : Engine) (d : ResourceData) (meta : GoValue)
    (xs : List (Option String))
    (hcmd : d.GetOk "command" = (.slice (xs.map optionalString), true))
    (hempty : none ∈ xs ∨ some "" ∈ xs) :
    ((resourcePodmanContainerCreate env eng d meta).result ≠ .ok none ∧
     (∀ ctx s,
        EngineCall.CreateWithSpec ctx s ∉ (resourcePodmanContainerCreate env eng d meta).calls) ∧
     (resourcePodmanContainerCreate env eng d meta).id = none) ∧
    (∀ (image connText : String) (config : SpecGenerator),
      d.Get "image" = .string image →
      eng.NewConnection [] (podmanSocket env) = .ok connText →
      eng.Pull [.NewConnection (podmanSocket env)] (some connText) image = none →
      createSpecBeforeCommand d image = .ok config →
      (resourcePodmanContainerCreate env eng d meta).result
        = .ok (some (errorsNew "values for command may not be empty")) ∧
      (resourcePodmanContainerCreate env eng d meta).calls
        = [.NewConnection (podmanSocket env), .Pull (some connText) image]) ∧
    (∀ (ys : List (Option String)) (config : SpecGenerator),
      d.GetOk "entrypoint" = (.slice (ys.map optionalString), true) →
      createSpecEntrypoint d config
        = .ok { config with Entrypoint := ys.map (fun o => o.getD "") }) := by
  have hfail := createSpecCommand_empty d xs hcmd hempty
  refine ⟨create_without_spec env eng d meta (createSpec_of_command_error d _ hfail), ?_,
    fun ys config hent => createSpecEntrypoint_ok d ys hent config⟩
  intro image connText config himg hconn hpull hspec
  rw [create_after_pull env eng d meta image connText himg hconn hpull,
    createSpec_command_fail d image config _ hspec (hfail config)]
  exact ⟨rfl, rfl⟩

/-- The C15 amendment at attributes that pass the reads before the command, with
the command `["sh", ""]` and an entrypoint that holds an empty and an absent
element. -/
theorem create_command_empty_witness :
    ((resourcePodmanContainerCreate ⟨"/run/user/1000"⟩ engineOk
        (looseData "web" "nginx:latest" false false
          [("command", .slice ([some "sh", some ""].map optionalString)),
           ("entrypoint", .slice ([some "", none].map optionalString))]) .nil).result
      = .ok (some (errorsNew "values for command may not be empty")) ∧
     (resourcePodmanContainerCreate ⟨"/run/user/1000"⟩ engineOk
        (looseData "web" "nginx:latest" false false
          [("command", .slice ([some "sh", some ""].map optionalString)),
           ("entrypoint", .slice ([some "", none].map optionalString))]) .nil).calls
      = [.NewConnection (podmanSocket ⟨"/run/user/1000"⟩),
         .Pull (some "conn") "nginx:latest"]) ∧
    createSpecEntrypoint
        (looseData "web" "nginx:latest" false false
          [("command", .slice ([some "sh", some ""].map optionalString)),
           ("entrypoint", .slice ([some "", none].map optionalString))])
        { Image := "nginx:latest" }
      = .ok { Image := "nginx:latest", Entrypoint := ["", ""] } :=
  ⟨(create_command_empty ⟨"/run/user/1000"⟩ engineOk
      (looseData "web" "nginx:latest" false false
        [("command", .slice ([some "sh", some ""].map optionalString)),
         ("entrypoint", .slice ([some "", none].map optionalString))]) .nil
      [some "sh", some ""] rfl (by decide)).2.1 "nginx:latest" "conn"
      { Image := "nginx:latest", RestartPolicy := "no",
        LogConfiguration := some { Driver := "" } } rfl rfl rfl rfl,
   (create_command_empty ⟨"/run/user/1000"⟩ engineOk
      (looseData "web" "nginx:latest" false false
        [("command", .slice ([some "sh", some ""].map optionalString)),
         ("entrypoint", .slice ([some "", none].map optionalString))]) .nil
      [some "sh", some ""] rfl (by decide)).2.2 [some "", none] { Image := "nginx:latest" }
      rfl⟩

/-! ### DNS servers -/

theorem stringSetToDNSServers_strings (s : String) (rest : List GoValue) :
    stringSetToDNSServers (some (.string s :: rest)) = .error (.interfaceConversion "net.IP") := by
  simp [stringSetToDNSServers, stringSetToDNSServersLoop, GoValue.assertIP, bind, Except.bind,
    throw, throwThe, MonadExceptOf.throw]

theorem createSpecDNS_strings (d : ResourceData) (s : String) (ss : List String)
    (hdns : d.GetOk "dns" = (.set (some ((s :: ss).map GoValue.string)), true))
    (config : SpecGenerator) :
    createSpecDNS d config = .error (.panic (.interfaceConversion "net.IP")) := by
  simp only [createSpecDNS, hdns, liftGo, GoValue.assertSet, List.map_cons,
    stringSetToDNSServers_strings, bind, Except.bind, pure, Except.pure, if_true]

theorem createSpec_of_dns_error (d : ResourceData) (e : Abort)
    (h : ∀ config, createSpecDNS d config = .error e) :
    ∀ image config, createSpec d image ≠ .ok config := by
  intro image config hok
  obtain ⟨c1, h1, -⟩ := build_bind_ok _ _ _ hok
  obtain ⟨c2, -, h2⟩ := build_bind_ok _ _ _ h1
  rw [h c2] at h2
  cases h2

theorem createSpec_dns_panic (d : ResourceData) (image : String) (config : SpecGenerator)
    (p : Panic) (hspec : createSpecBeforeDNS d image = .ok config)
    (h : createSpecDNS d config = .error (.panic p)) :
    createSpec d image = .error (.panic p) := by
  simp [createSpec, hspec, h, bind, Except.bind]

/-- Claim C20 as stated fails in its last part: on an unreachable engine,
schema-delivered attributes with a dns entry make create return normally, with the
connection error. -/
theorem create_dns_returns_connect_error :
    (resourcePodmanContainerCreate ⟨"/run/user/1000"⟩ engineUnreachable
        (schemaData "web" "nginx:latest" [("dns", .set (some [.string "8.8.8.8"]))])
        .nil).result
      = .ok (some (errorsNew "connection refused")) := rfl

/-- Claim C20, amended. `stringSetToDNSServers` returns an empty sequence for a nil
or empty set, and for every non-empty set whose elements are strings the
conversion of the first element to `net.IP` fails, so the function panics. A run
of create with such a dns attribute never returns nil, submits no container
creation and persists no identifier; when connect and pull succeed and the filling
of the specification reaches the dns attribute, it panics there. -/
theorem stringSetToDNSServers_panics :
    stringSetToDNSServers none = .ok [] ∧
    stringSetToDNSServers (some []) = .ok [] ∧
    (∀ (s : String) (ss : List String),
      stringSetToDNSServers (some ((s :: ss).map GoValue.string))
        = .error (.interfaceConversion "net.IP")) ∧
    (∀ (env : Env) (eng : Engine) (d : ResourceData) (meta : GoValue) (s : String)
        (ss : List String),
      d.GetOk "dns" = (.set (some ((s :: ss).map GoValue.string)), true) →
      ((resourcePodmanContainerCreate env eng d meta).result ≠ .ok none ∧
       (∀ ctx sp,
          EngineCall.CreateWithSpec ctx sp
            ∉ (resourcePodmanContainerCreate env eng d meta).calls) ∧
       (resourcePodmanContainerCreate env eng d meta).id = none) ∧
      (∀ (image connText : String) (config : SpecGenerator),
        d.Get "image" = .string image →
        eng.NewConnection [] (podmanSocket env) = .ok connText →
        eng.Pull [.NewConnection (podmanSocket env)] (some connText) image = none →
        createSpecBeforeDNS d image = .ok config →
        (resourcePodmanContainerCreate env eng d meta).result
          = .error (.interfaceConversion "net.IP") ∧
        (resourcePodmanContainerCreate env eng d meta).calls
          = [.NewConnection (podmanSocket env), .Pull (some connText) image])) := by
  refine ⟨rfl, rfl, fun s ss => stringSetToDNSServers_strings s _, ?_⟩
  intro env eng d meta s ss hdns
  have hfail := createSpecDNS_strings d s ss hdns
  refine ⟨create_without_spec env eng d meta (createSpec_of_dns_error d _ hfail), ?_⟩
  intro image connText config himg hconn hpull hspec
  rw [create_after_pull env eng d meta image connText himg hconn hpull,
    createSpec_dns_panic d image config _ hspec (hfail config)]
  exact ⟨rfl, rfl⟩

/-- The C20 amendment at attributes that pass the reads before the dns attribute,
with the server `8.8.8.8`: the run panics after the connection and the pull. -/
theorem stringSetToDNSServers_panics_witness :
    (resourcePodmanContainerCreate ⟨"/run/user/1000"⟩ engineOk
        (looseData "web" "nginx:latest" false false
          [("dns", .set (some (["8.8.8.8"].map GoValue.string)))]) .nil).result
      = .error (.interfaceConversion "net.IP") ∧
    (resourcePodmanContainerCreate ⟨"/run/user/1000"⟩ engineOk
        (looseData "web" "nginx:latest" false false
          [("dns", .set (some (["8.8.8.8"].map GoValue.string)))]) .nil).calls
      = [.NewConnection (podmanSocket ⟨"/run/user/1000"⟩), .Pull (some "conn") "nginx:latest"] :=
  (stringSetToDNSServers_panics.2.2.2 ⟨"/run/user/1000"⟩ engineOk
    (looseData "web" "nginx:latest" false false
      [("dns", .set (some (["8.8.8.8"].map GoValue.string)))]) .nil "8.8.8.8" [] rfl).2
    "nginx:latest" "conn"
    { Image := "nginx:latest", RestartPolicy := "no",
      LogConfiguration := some { Driver := "" } } rfl rfl rfl rfl

/-- On attributes whose `max_retry_count` holds an `int`, as the schema delivers
it, no run of create persists an identifier. -/
theorem create_int_retry_count_persists_nothing (env : Env) (eng : Engine)
    (d : ResourceData) (meta : GoValue) (privileged publishAllPorts : Bool)
    (restart : String) (n : Int)
    (h1 : d.Get "privileged" = .bool privileged)
    (h2 : d.Get "publish_all_ports" = .bool publishAllPorts)
    (h3 : d.Get "restart" = .string restart) (h4 : d.Get "max_retry_count" = .int n) :
    (resourcePodmanContainerCreate env eng d meta).id = none :=
  (create_without_spec env eng d meta (fun image config hok => by
    rw [createSpec_of_basics_error d image _
      (createSpecBasics_int d image privileged publishAllPorts restart n h1 h2 h3 h4)] at hok
    cases hok)).2.2

end Podman
